import Mathlib

/-!
Shallow embedding of the matching/scoring core of the `my-resume` repository
(`src/matcher/technology-matcher.ts`, `src/matcher/normalizer.ts`,
`src/matcher/scorers.ts`, `src/matcher/selector.ts`, `src/matcher/index.ts`,
and the type definitions in `src/types/*.ts`).

JavaScript numbers are modelled as exact rationals (all constants in the
source are small decimal literals); the current date, which the source reads
with `new Date()`, is passed explicitly as `now` parameters.  String
operations mirror the JavaScript ones on ASCII data.
-/

namespace Resume

/-! ## JavaScript primitive helpers -/

/-- `Math.round` for non-negative JS numbers: round half up, `⌊q + 1/2⌋`. -/
def jsRound (q : ℚ) : ℤ := ⌊q + 1/2⌋

/-- JS `s.toLowerCase()` on ASCII data: characterwise `Char.toLower`. -/
def lowerStr (s : String) : String := String.mk (s.data.map Char.toLower)

/-- JS `s.trim()`: strip leading and trailing whitespace. -/
def trimStr (s : String) : String :=
  String.mk (((s.data.dropWhile (·.isWhitespace)).reverse.dropWhile
    (·.isWhitespace)).reverse)

/-- Splitter for `splitOnChar`. -/
def splitOnCharGo (sep : Char) : List Char → List Char → List String
  | cur, [] => [String.mk cur.reverse]
  | cur, c :: rest =>
    if c == sep then String.mk cur.reverse :: splitOnCharGo sep [] rest
    else splitOnCharGo sep (c :: cur) rest

/-- JS `s.split(sep)` for a one-character separator (always returns at
least one piece; `"".split` gives `[""]`). -/
def splitOnChar (sep : Char) (s : String) : List String :=
  splitOnCharGo sep [] s.data

/-- JS `s.slice(0, n)`. -/
def takeStr (n : ℕ) (s : String) : String := String.mk (s.data.take n)

/-- Value of a list of decimal digit characters. -/
def digitsVal (l : List Char) : ℤ :=
  l.foldl (fun acc c => acc * 10 + ((c.toNat : ℤ) - 48)) 0

/-- JS `parseInt(s, 10)`: skip leading whitespace, optional sign, then read
leading decimal digits; `none` models the `NaN` result when no digit is
found. -/
def jsParseInt (s : String) : Option ℤ :=
  let l := s.toList.dropWhile (·.isWhitespace)
  let signAndRest : Bool × List Char :=
    match l with
    | '-' :: r => (true, r)
    | '+' :: r => (false, r)
    | _ => (false, l)
  let ds := signAndRest.2.takeWhile (·.isDigit)
  if ds.isEmpty then none
  else some ((if signAndRest.1 then -1 else 1) * digitsVal ds)

/-- JS `Number(s)` restricted to the strings the date code produces: empty
string is `0`, a digit string is its value, anything else is `NaN`
(modelled `none`). -/
def jsNumber (s : String) : Option ℤ :=
  let t := trimStr s
  if t = "" then some 0
  else if t.toList.all Char.isDigit then some (digitsVal t.toList)
  else none

/-- Whether `sub` occurs as a contiguous substring of `l`
(JS `String.prototype.includes`). -/
def listContainsSub (sub : List Char) : List Char → Bool
  | [] => sub.isEmpty
  | c :: t => sub.isPrefixOf (c :: t) || listContainsSub sub t

/-- JS `a.includes(b)`. -/
def jsIncludes (a b : String) : Bool := listContainsSub b.toList a.toList

/-- JS `s.charAt(0).toUpperCase() + s.slice(1)`. -/
def capFirst (s : String) : String :=
  match s.toList with
  | [] => ""
  | c :: rest => String.mk (c.toUpper :: rest)

/-- Insertion-order deduplication, as produced by pouring a list through a
JS `Set` and spreading it back. -/
def dedup (l : List String) : List String :=
  l.foldl (fun acc t => if acc.contains t then acc else acc ++ [t]) []

/-- Whether the string contains a decimal digit; this is exactly the JS
regex test `/\d+%?/.test(s)`, whose `%?` part is optional. -/
def containsDigit (s : String) : Bool := s.toList.any (·.isDigit)

/-- Scanner for `hasDigitPercent`. -/
def hasDigitPercentGo : List Char → Bool
  | [] => false
  | [_] => false
  | a :: b :: t => (a.isDigit && b == '%') || hasDigitPercentGo (b :: t)

/-- JS regex test `/\d+%/.test(s)`: some digit immediately followed by a
percent sign. -/
def hasDigitPercent (s : String) : Bool := hasDigitPercentGo s.toList

/-- JS `s.indexOf` semantics over a list of strings: index of the first
occurrence, `-1` when absent (`Array.prototype.indexOf`). -/
def jsIndexOf (l : List String) (s : String) : ℤ :=
  match l.findIdx? (· == s) with
  | some i => (i : ℤ)
  | none => -1

/-- A JS "word" character, for `\b` boundaries: letter, digit or underscore
(the source data is ASCII). -/
def isWordChar (c : Char) : Bool := c.isAlphanum || c == '_'

/-- If `pat` is a case-insensitive prefix of `l`, return the rest of `l`. -/
def ciPrefixRest : List Char → List Char → Option (List Char)
  | [], l => some l
  | _ :: _, [] => none
  | p :: ps, c :: cs => if p.toLower == c.toLower then ciPrefixRest ps cs else none

/-- Whether one of `pats` matches at the current position with word
boundaries on both sides (`prev` is the character just before it). -/
def wbHere (pats : List (List Char)) (prev : Option Char) (l : List Char) : Bool :=
  pats.any fun pat =>
    (match prev with
     | none => true
     | some c => !isWordChar c) &&
    (match ciPrefixRest pat l with
     | some [] => true
     | some (c :: _) => !isWordChar c
     | none => false)

/-- Case-insensitive, word-boundary-delimited search for any of `pats` in a
character list: the JS regex test `/\b(p1|p2|...)\b/i.test(s)`. -/
def wbSearch (pats : List (List Char)) : Option Char → List Char → Bool
  | prev, [] => wbHere pats prev []
  | prev, c :: t => wbHere pats prev (c :: t) || wbSearch pats (some c) t

/-- JS regex test `/\b(led|managed|mentored|coached|hired|built team)\b/i`. -/
def hasLeadershipKeyword (s : String) : Bool :=
  wbSearch
    ["led".toList, "managed".toList, "mentored".toList, "coached".toList,
     "hired".toList, "built team".toList] none s.toList

/-- JS `s.split(/\s+/)` state machine: `skipping = true` while inside a
whitespace run whose token has already been emitted. -/
def jsSplitWsGo : Bool → List Char → List Char → List (List Char)
  | false, cur, [] => [cur.reverse]
  | false, cur, c :: rest =>
    if c.isWhitespace then cur.reverse :: jsSplitWsGo true [] rest
    else jsSplitWsGo false (c :: cur) rest
  | true, _, [] => [[]]
  | true, _, c :: rest =>
    if c.isWhitespace then jsSplitWsGo true [] rest
    else jsSplitWsGo false [c] rest

/-- JS `s.split(/\s+/)` (leading/trailing whitespace yields an empty first
or last piece, interior runs collapse). -/
def jsSplitWs (s : String) : List String :=
  (jsSplitWsGo false [] s.toList).map String.mk

/-! ## Data model (`src/types/job.ts`, `src/types/profile.ts`,
`src/types/analyzer.ts`, `src/types/matcher.ts`) -/

/-- `RoleLevel` (`src/types/job.ts`). -/
inductive RoleLevel where
  | junior | mid | senior | staff | principal | lead | manager | director
deriving DecidableEq, Repr, Fintype

/-- The string literal of a `RoleLevel` value. -/
def RoleLevel.str : RoleLevel → String
  | .junior => "junior"
  | .mid => "mid"
  | .senior => "senior"
  | .staff => "staff"
  | .principal => "principal"
  | .lead => "lead"
  | .manager => "manager"
  | .director => "director"

/-- `SeniorityLevel` (`src/types/analyzer.ts`); same eight literals. -/
inductive SeniorityLevel where
  | junior | mid | senior | staff | principal | lead | manager | director
deriving DecidableEq, Repr, Fintype

/-- The string literal of a `SeniorityLevel` value. -/
def SeniorityLevel.str : SeniorityLevel → String
  | .junior => "junior"
  | .mid => "mid"
  | .senior => "senior"
  | .staff => "staff"
  | .principal => "principal"
  | .lead => "lead"
  | .manager => "manager"
  | .director => "director"

/-- `JobDomain` (`src/types/analyzer.ts`). -/
inductive JobDomain where
  | fintech | healthcare | ecommerce | gaming | enterprise | consumer
  | saas | crypto | aiMl | social | media | education | other
deriving DecidableEq, Repr

/-- The (lowercase) string literal of a `JobDomain` value. -/
def JobDomain.str : JobDomain → String
  | .fintech => "fintech"
  | .healthcare => "healthcare"
  | .ecommerce => "ecommerce"
  | .gaming => "gaming"
  | .enterprise => "enterprise"
  | .consumer => "consumer"
  | .saas => "saas"
  | .crypto => "crypto"
  | .aiMl => "ai-ml"
  | .social => "social"
  | .media => "media"
  | .education => "education"
  | .other => "other"

/-- `CompanyType` (`src/types/analyzer.ts`). -/
inductive CompanyType where
  | startup | scaleup | enterprise | agency | consulting | faang
deriving DecidableEq, Repr

/-- `AchievementCategory` (`src/types/job.ts`). -/
inductive AchievementCategory where
  | performance | quality | cost | time | user | business | team
deriving DecidableEq, Repr

/-- The string literal of an `AchievementCategory` value. -/
def AchievementCategory.str : AchievementCategory → String
  | .performance => "performance"
  | .quality => "quality"
  | .cost => "cost"
  | .time => "time"
  | .user => "user"
  | .business => "business"
  | .team => "team"

/-- `SkillLevel` (`src/types/profile.ts`). -/
inductive SkillLevel where
  | beginner | intermediate | advanced | expert
deriving DecidableEq, Repr

/-- `Company` (`src/types/job.ts`); `size`/`stage` are kept as raw strings,
they are never inspected by the matching core. -/
structure Company where
  name : String
  industry : Option String := none
  size : Option String := none
  stage : Option String := none
  description : Option String := none
  website : Option String := none
  location : Option String := none
deriving DecidableEq, Repr

/-- `Project` (`src/types/job.ts`). -/
structure Project where
  name : String
  description : Option String := none
  role : Option String := none
  duration : Option String := none
  technologies : Option (List String) := none
  impact : Option String := none
  teamSize : Option ℤ := none
  challenges : Option (List String) := none
  solutions : Option (List String) := none
deriving DecidableEq, Repr

/-- `Achievement` (`src/types/job.ts`). -/
structure Achievement where
  description : String
  impact : Option String := none
  metrics : Option String := none
  category : Option AchievementCategory := none
  quantifiable : Option Bool := none
deriving DecidableEq, Repr

/-- `Keywords` (`src/types/job.ts`). -/
structure Keywords where
  jobTitles : Option (List String) := none
  domains : Option (List String) := none
  buzzwords : Option (List String) := none
  certifications : Option (List String) := none
deriving DecidableEq, Repr

/-- `RelevanceWeights` (`src/types/job.ts`): per-job author-supplied
emphasis numbers, each field optional. -/
structure RelevanceWeights where
  mobile : Option ℚ := none
  web : Option ℚ := none
  backend : Option ℚ := none
  frontend : Option ℚ := none
  fullstack : Option ℚ := none
  leadership : Option ℚ := none
  startup : Option ℚ := none
  enterprise : Option ℚ := none
deriving DecidableEq, Repr

/-- `Technologies` (`src/types/job.ts`). -/
structure Technologies where
  languages : Option (List String) := none
  frameworks : Option (List String) := none
  databases : Option (List String) := none
  cloud : Option (List String) := none
  devops : Option (List String) := none
  tools : Option (List String) := none
  mobile : Option (List String) := none
  testing : Option (List String) := none
deriving DecidableEq, Repr

/-- `Role` (`src/types/job.ts`); only the fields the core reads. -/
structure Role where
  title : String
  level : Option RoleLevel := none
  type : Option String := none
  teamSize : Option ℤ := none
deriving DecidableEq, Repr

/-- `Duration` (`src/types/job.ts`); the source field `end` is written
`end'` because `end` is a Lean keyword. -/
structure Duration where
  start : String
  end' : Option String := none
  totalMonths : Option ℤ := none
deriving DecidableEq, Repr

/-- `Responsibilities` (`src/types/job.ts`). -/
structure Responsibilities where
  primary : Option (List String) := none
  secondary : Option (List String) := none
  leadership : Option (List String) := none
  technical : Option (List String) := none
  business : Option (List String) := none
deriving DecidableEq, Repr

/-- `EnhancedJob` (`src/types/job.ts`). -/
structure EnhancedJob where
  company : Company
  role : Role
  duration : Duration
  responsibilities : Option Responsibilities := none
  projects : Option (List Project) := none
  technologies : Option Technologies := none
  achievements : Option (List Achievement) := none
  contextWorkStyle : Option String := none
  keywords : Option Keywords := none
  relevanceWeights : Option RelevanceWeights := none
deriving DecidableEq, Repr

/-- `BasicJob` (`src/types/job.ts`), together with the legacy fields the
normalizer probes for (`duration` object, `description` list). -/
structure BasicJob where
  company : String
  companyDescription : Option String := none
  position : String
  location : Option String := none
  startDate : Option String := none
  endDate : Option String := none
  technologies : Option (List String) := none
  achievements : Option (List String) := none
  durationObj : Option Duration := none
  descriptionList : Option (List String) := none
deriving DecidableEq, Repr

/-- A raw job record as seen by `normalizeJob`.  `basic` covers records
whose `company` field is a string, `enhanced` those whose `company` field
is an object, and `unknownFormat` stands for any runtime record whose
`company` field is neither (the case the source's `throw` guards). -/
inductive Job where
  | basic (b : BasicJob)
  | enhanced (e : EnhancedJob)
  | unknownFormat
deriving DecidableEq, Repr

/-- `isEnhancedJob` type guard: `typeof job.company === 'object'`. -/
def isEnhancedJob : Job → Bool
  | .enhanced _ => true
  | _ => false

/-- `isBasicJob` type guard: `typeof job.company === 'string'`. -/
def isBasicJob : Job → Bool
  | .basic _ => true
  | _ => false

/-- `NormalizedJob` (`src/types/job.ts`). -/
structure NormalizedJob where
  companyName : String
  companyDescription : Option String := none
  companyInfo : Option Company := none
  title : String
  level : Option RoleLevel := none
  location : String := ""
  startDate : String := ""
  endDate : Option String := none
  durationMonths : Option ℤ := none
  technologies : List String := []
  projects : List Project := []
  achievements : List Achievement := []
  responsibilities : List String := []
  relevanceWeights : Option RelevanceWeights := none
  keywords : Option Keywords := none
  workStyle : Option String := none
deriving DecidableEq, Repr

/-- `JobRequirements` (`src/types/analyzer.ts`). -/
structure JobRequirements where
  title : String := ""
  seniority : SeniorityLevel
  department : Option String := none
  companyName : Option String := none
  companyType : Option CompanyType := none
  domain : Option JobDomain := none
  location : Option String := none
  workArrangement : Option String := none
  requiredTechnologies : List String := []
  preferredTechnologies : List String := []
  yearsExperience : Option ℚ := none
  keyResponsibilities : List String := []
  leadershipRequired : Bool := false
  teamSize : Option String := none
  mentorshipExpected : Bool := false
  keywords : List String := []
  buzzwords : List String := []
deriving DecidableEq, Repr

/-- `Skill` (`src/types/profile.ts`). -/
structure Skill where
  name : String
  level : SkillLevel
  yearsUsed : ℚ := 0
  lastUsed : ℤ := 0
  wantToUse : Bool := false
  keywords : Option (List String) := none
deriving DecidableEq, Repr

/-- `SkillCategory` (`src/types/profile.ts`). -/
structure SkillCategory where
  languages : List Skill := []
  frameworks : List Skill := []
  mobile : List Skill := []
  databases : List Skill := []
  cloud : List Skill := []
  devops : List Skill := []
  testing : List Skill := []
  tools : List Skill := []
  domains : List Skill := []
  soft : List Skill := []
deriving DecidableEq, Repr

/-- `SkillsData` (`src/types/profile.ts`). -/
structure SkillsData where
  categories : SkillCategory
  featured : List String := []
  deprecated : List String := []
deriving DecidableEq, Repr

/-- The five-entry weight vector of `MatchConfig` (`src/types/matcher.ts`). -/
structure MatchWeights where
  technology : ℚ
  domain : ℚ
  seniority : ℚ
  recency : ℚ
  relevance : ℚ
deriving DecidableEq, Repr

/-- `MatchConfig` (`src/types/matcher.ts`). -/
structure MatchConfig where
  weights : MatchWeights
  recencyDecay : ℚ
  minProjectsToShow : ℕ
  maxProjectsToShow : ℕ
  minAchievementsToShow : ℕ
  maxAchievementsToShow : ℕ
  minSkillsToShow : ℕ
  maxSkillsToShow : ℕ
deriving DecidableEq, Repr

/-- `DEFAULT_MATCH_CONFIG` (`src/types/matcher.ts`). -/
def DEFAULT_MATCH_CONFIG : MatchConfig where
  weights :=
    { technology := 0.35
      domain := 0.20
      seniority := 0.15
      recency := 0.15
      relevance := 0.15 }
  recencyDecay := 0.1
  minProjectsToShow := 2
  maxProjectsToShow := 5
  minAchievementsToShow := 3
  maxAchievementsToShow := 8
  minSkillsToShow := 8
  maxSkillsToShow := 15

/-- The `scores` sub-record of `JobScore` (`src/types/matcher.ts`). -/
structure SubScores where
  technologyMatch : ℚ
  domainMatch : ℚ
  seniorityMatch : ℚ
  recency : ℚ
  relevanceWeight : ℚ
deriving DecidableEq, Repr

/-- `JobScore` (`src/types/matcher.ts`). -/
structure JobScore where
  jobId : String
  companyName : String
  title : String
  scores : SubScores
  totalScore : ℚ
  matchedTechnologies : List String
  missingTechnologies : List String
  matchedKeywords : List String
deriving DecidableEq, Repr

/-- `ScoredProject` (`src/types/matcher.ts`): a `Project` with score data
(`{...project, score, matchedTechnologies, relevanceReason}`). -/
structure ScoredProject where
  project : Project
  score : ℚ
  matchedTechnologies : List String
  relevanceReason : String
deriving DecidableEq, Repr

/-- `ScoredAchievement` (`src/types/matcher.ts`). -/
structure ScoredAchievement where
  achievement : Achievement
  score : ℚ
  relevanceReason : String
deriving DecidableEq, Repr

/-- `ScoredSkill` (`src/types/matcher.ts`). -/
structure ScoredSkill where
  skill : Skill
  score : ℚ
  isRequired : Bool
  isPreferred : Bool
deriving DecidableEq, Repr

/-- One entry of the technology-coverage report
(`{tech, covered, source?}` in `src/matcher/selector.ts`). -/
structure CoverageEntry where
  tech : String
  covered : Bool
  source : Option String := none
deriving DecidableEq, Repr

/-- The record returned by `analyzeTechnologyCoverage`. -/
structure TechnologyCoverage where
  required : List CoverageEntry
  preferred : List CoverageEntry
  coveragePercent : ℤ
deriving DecidableEq, Repr

/-! ## Technology matcher (`src/matcher/technology-matcher.ts`) -/

/-- `TECH_ALIASES`, in object-literal (insertion) order: canonical name
paired with its lowercase alias list. -/
def TECH_ALIASES : List (String × List String) :=
  [("JavaScript", ["JS", "javascript", "es6", "ecmascript", "es2015", "es2020"]),
   ("TypeScript", ["TS", "typescript"]),
   ("React Native", ["react-native", "RN", "reactnative"]),
   ("React", ["reactjs", "react.js"]),
   ("Node.js", ["nodejs", "node", "node.js"]),
   ("Next.js", ["nextjs", "next.js", "next"]),
   ("Swift", ["swift", "ios"]),
   ("Kotlin", ["kotlin", "android"]),
   ("Objective-C", ["objc", "objective-c", "obj-c"]),
   ("PostgreSQL", ["postgres", "postgresql", "psql", "pg"]),
   ("MongoDB", ["mongo", "mongodb"]),
   ("MySQL", ["mysql"]),
   ("Redis", ["redis"]),
   ("Docker", ["docker", "containers"]),
   ("Kubernetes", ["k8s", "kubernetes", "kube"]),
   ("AWS", ["aws", "amazon web services", "s3", "ec2", "lambda"]),
   ("GCP", ["gcp", "google cloud", "google cloud platform"]),
   ("Azure", ["azure", "microsoft azure"]),
   ("GitHub Actions", ["github actions", "gha", "github-actions"]),
   ("GitLab CI", ["gitlab ci", "gitlab-ci", "gitlab pipelines"]),
   ("CircleCI", ["circleci", "circle ci", "circle-ci"]),
   ("Fastlane", ["fastlane"]),
   ("Firebase", ["firebase", "firestore"]),
   ("GraphQL", ["graphql", "gql"]),
   ("REST", ["rest", "restful", "rest api"]),
   ("UIKit", ["uikit", "ui kit"]),
   ("SwiftUI", ["swiftui", "swift ui"]),
   ("Jetpack Compose", ["jetpack compose", "compose", "android compose"]),
   ("Jest", ["jest"]),
   ("Cypress", ["cypress"]),
   ("XCTest", ["xctest", "xcode testing"]),
   ("Expo", ["expo", "expo-cli", "eas"]),
   ("NestJS", ["nestjs", "nest.js", "nest"]),
   ("Fastify", ["fastify"]),
   ("Express", ["express", "expressjs", "express.js"]),
   ("Python", ["python", "py", "python3"]),
   ("Go", ["golang", "go"]),
   ("Rust", ["rust", "rustlang"]),
   ("Ruby", ["ruby", "rails", "ruby on rails"]),
   ("Java", ["java", "jvm"]),
   ("SQLite", ["sqlite", "sqlite3"]),
   ("Supabase", ["supabase"]),
   ("Heroku", ["heroku"]),
   ("Dokku", ["dokku"]),
   ("Ansible", ["ansible"]),
   ("Terraform", ["terraform", "tf"])]

/-- `normalizeTechName`: look the lowercased, trimmed input up in the alias
table (first entry whose alias list contains it or whose canonical name
lowercases to it); fall back to capitalizing the first letter. -/
def normalizeTechName (tech : String) : String :=
  let lower := trimStr (lowerStr tech)
  match TECH_ALIASES.find? (fun e => e.2.contains lower || lowerStr e.1 == lower) with
  | some e => e.1
  | none => capFirst tech

/-- `techMatches`: canonicalized lowercase equality, or containment either
way, or equality after stripping `. - _` and whitespace. -/
def techMatches (tech1 tech2 : String) : Bool :=
  let norm1 := lowerStr (normalizeTechName tech1)
  let norm2 := lowerStr (normalizeTechName tech2)
  if norm1 == norm2 then true
  else if jsIncludes norm1 norm2 || jsIncludes norm2 norm1 then true
  else
    let clean1 := String.mk (norm1.toList.filter fun c =>
      !(c == '.' || c == '-' || c == '_' || c.isWhitespace))
    let clean2 := String.mk (norm2.toList.filter fun c =>
      !(c == '.' || c == '-' || c == '_' || c.isWhitespace))
    clean1 == clean2

/-- `findMatchingTechs`: report each required entry exactly once, in order,
canonicalized, as matched or missing depending on whether some candidate
fuzzy-matches it. -/
def findMatchingTechs (candidateTechs requiredTechs : List String) :
    List String × List String :=
  ((requiredTechs.filter fun r => candidateTechs.any fun c => techMatches c r).map
      normalizeTechName,
   (requiredTechs.filter fun r => !candidateTechs.any fun c => techMatches c r).map
      normalizeTechName)

/-- `getAllSkills`: flatten the category map (all ten fields are arrays). -/
def getAllSkills (skills : SkillsData) : List Skill :=
  let c := skills.categories
  c.languages ++ c.frameworks ++ c.mobile ++ c.databases ++ c.cloud ++
    c.devops ++ c.testing ++ c.tools ++ c.domains ++ c.soft

/-- Whether a skill matches one of `techs` by name or by any of its
declared keyword aliases. -/
def skillMatchesAny (skill : Skill) (techs : List String) : Bool :=
  techs.any fun t =>
    techMatches skill.name t ||
      (skill.keywords.getD []).any fun k => techMatches k t

/-- `findMatchingSkills`: partition the inventory into required / preferred
/ other. -/
def findMatchingSkills (skills : SkillsData) (requiredTechs preferredTechs : List String) :
    List Skill × List Skill × List Skill :=
  let allSkills := getAllSkills skills
  (allSkills.filter fun s => skillMatchesAny s requiredTechs,
   allSkills.filter fun s =>
     !skillMatchesAny s requiredTechs && skillMatchesAny s preferredTechs,
   allSkills.filter fun s =>
     !skillMatchesAny s requiredTechs && !skillMatchesAny s preferredTechs)

/-- `calculateTechCoverage` (`src/matcher/technology-matcher.ts`). -/
def calculateTechCoverage (candidateTechs requiredTechs preferredTechs : List String) :
    ℚ × ℚ × ℚ × List String × List String :=
  let reqResult := findMatchingTechs candidateTechs requiredTechs
  let prefResult := findMatchingTechs candidateTechs preferredTechs
  let requiredCoverage : ℚ :=
    if requiredTechs.length > 0 then
      (reqResult.1.length : ℚ) / (requiredTechs.length : ℚ)
    else 1
  let preferredCoverage : ℚ :=
    if preferredTechs.length > 0 then
      (prefResult.1.length : ℚ) / (preferredTechs.length : ℚ)
    else 1
  (requiredCoverage, preferredCoverage,
   requiredCoverage * 0.7 + preferredCoverage * 0.3,
   reqResult.1, prefResult.1)

/-- `isDeprecated`: fuzzy membership in the global deprecated list. -/
def isDeprecated (tech : String) (skills : SkillsData) : Bool :=
  skills.deprecated.any fun d => techMatches d tech

/-- `isFeatured`: fuzzy membership in the global featured list. -/
def isFeatured (tech : String) (skills : SkillsData) : Bool :=
  skills.featured.any fun f => techMatches f tech

/-! ## Job normalizer (`src/matcher/normalizer.ts`) -/

/-- Test of the JS regex `/^\d{4}-\d{2}/`. -/
def isYYYYMM (s : String) : Bool :=
  match s.toList with
  | a :: b :: c :: d :: e :: f :: g :: _ =>
    a.isDigit && b.isDigit && c.isDigit && d.isDigit && e == '-' &&
      f.isDigit && g.isDigit
  | _ => false

/-- Test of the JS regex `/^\d{4}$/`. -/
def isFourDigits (s : String) : Bool :=
  match s.toList with
  | [a, b, c, d] => a.isDigit && b.isDigit && c.isDigit && d.isDigit
  | _ => false

/-- Whether four consecutive digits start here. -/
def fourDigitsAt (l : List Char) : Bool :=
  match l with
  | a :: b :: c :: d :: _ => a.isDigit && b.isDigit && c.isDigit && d.isDigit
  | _ => false

/-- First match of the JS regex `/\d{4}/`: the earliest run of four
consecutive digits. -/
def findYear4 : List Char → Option String
  | [] => none
  | c :: rest =>
    if fourDigitsAt (c :: rest) then some (String.mk ((c :: rest).take 4))
    else findYear4 rest

/-- The `months` lookup table of `normalizeDate`, in source order. -/
def monthTable : List (String × String) :=
  [("january", "01"), ("february", "02"), ("march", "03"), ("april", "04"),
   ("may", "05"), ("june", "06"), ("july", "07"), ("august", "08"),
   ("september", "09"), ("october", "10"), ("november", "11"), ("december", "12"),
   ("jan", "01"), ("feb", "02"), ("mar", "03"), ("apr", "04"),
   ("jun", "06"), ("jul", "07"), ("aug", "08"), ("sep", "09"), ("oct", "10"),
   ("nov", "11"), ("dec", "12")]

/-- `normalizeDate`: keep `YYYY-MM` prefixes, parse "Month Year" (full or
3-letter month, case-insensitive), degrade to `YEAR-01` when only a 4-digit
year is found, and otherwise return the input unchanged. -/
def normalizeDate (dateStr : String) : String :=
  if dateStr = "" then ""
  else if isYYYYMM dateStr then takeStr 7 dateStr
  else
    let parts := jsSplitWs (lowerStr dateStr)
    let viaMonth : Option String :=
      match parts with
      | [p0, p1] =>
        match monthTable.find? (fun e => e.1 == p0) with
        | some e => if isFourDigits p1 then some (p1 ++ "-" ++ e.2) else none
        | none => none
      | _ => none
    match viaMonth with
    | some d => d
    | none =>
      match findYear4 dateStr.toList with
      | some y => y ++ "-01"
      | none => dateStr

/-- The JS `Date(year, ...)` constructor maps years 0–99 to 1900–1999. -/
def jsDateYear (y : ℤ) : ℤ := if 0 ≤ y ∧ y ≤ 99 then 1900 + y else y

/-- `parseDate`, reduced to the year and 0-based month the duration
computation reads back out of the `Date` (later fields of the split are the
day and do not affect the month count; `Date` month overflow carries into
the year, which the linear combination below absorbs).  `none` models an
`Invalid Date` (some `Number(part)` was `NaN`). -/
def parseDateYM (dateStr : String) : Option (ℤ × ℤ) :=
  let normalized := normalizeDate dateStr
  match (splitOnChar '-' normalized).map jsNumber with
  | [] => none
  | p0 :: rest =>
    match p0 with
    | none => none
    | some y =>
      match (match rest with | [] => some (1 : ℤ) | p1 :: _ => p1) with
      | none => none
      | some m => some (jsDateYear y, m - 1)

/-- `calculateMonths`: whole months between the two dates, at least 1; the
missing-or-empty end date means "now" (`nowY`, `nowM0` = current year and
0-based current month).  `none` models the `NaN` produced by an unparsable
date. -/
def calculateMonths (nowY nowM0 : ℤ) (start : String) (endOpt : Option String) :
    Option ℤ :=
  let endYM : Option (ℤ × ℤ) :=
    match endOpt with
    | some e => if e = "" then some (nowY, nowM0) else parseDateYM e
    | none => some (nowY, nowM0)
  match parseDateYM start, endYM with
  | some (sy, sm), some (ey, em) => some (max 1 ((ey - sy) * 12 + (em - sm)))
  | _, _ => none

/-- `collectTechnologies`: the eight category lists then every project's
list, deduplicated in insertion order. -/
def collectTechnologies (job : EnhancedJob) : List String :=
  let fromCategories :=
    match job.technologies with
    | none => []
    | some t =>
      [t.languages, t.frameworks, t.databases, t.cloud, t.devops, t.tools,
       t.mobile, t.testing].filterMap id |>.flatten
  let fromProjects :=
    ((job.projects.getD []).map fun p => p.technologies.getD []).flatten
  dedup (fromCategories ++ fromProjects)

/-- `normalizeAchievements`: default the `quantifiable` flag from the
`/\d+%?/` digit test. -/
def normalizeAchievements (achievements : Option (List Achievement)) :
    List Achievement :=
  (achievements.getD []).map fun a =>
    { a with quantifiable := some (a.quantifiable.getD (containsDigit a.description)) }

/-- `collectResponsibilities`: flatten the five sub-categories in order. -/
def collectResponsibilities (resp : Option Responsibilities) : List String :=
  match resp with
  | none => []
  | some r =>
    r.primary.getD [] ++ r.secondary.getD [] ++ r.leadership.getD [] ++
      r.technical.getD [] ++ r.business.getD []

/-- `normalizeEnhancedJob`. -/
def normalizeEnhancedJob (nowY nowM0 : ℤ) (job : EnhancedJob) : NormalizedJob where
  companyName := job.company.name
  companyDescription := job.company.description
  companyInfo := some job.company
  title := job.role.title
  level := job.role.level
  location := job.company.location.getD "Remote"
  startDate := job.duration.start
  endDate := job.duration.end'
  durationMonths :=
    match job.duration.totalMonths with
    | some m => some m
    | none => calculateMonths nowY nowM0 job.duration.start job.duration.end'
  technologies := collectTechnologies job
  projects := job.projects.getD []
  achievements := normalizeAchievements job.achievements
  responsibilities := collectResponsibilities job.responsibilities
  relevanceWeights := job.relevanceWeights
  keywords := job.keywords
  workStyle := job.contextWorkStyle

/-- `normalizeBasicJob`; `startDate`/`endDate` fall back to the legacy
nested `duration` object, then to the empty string (a falsy/empty end date
becomes `undefined`). -/
def normalizeBasicJob (nowY nowM0 : ℤ) (job : BasicJob) : NormalizedJob :=
  let startDate :=
    (job.startDate.getD ((job.durationObj.map Duration.start).getD ""))
  let endDate : Option String :=
    match job.endDate with
    | some e => some e
    | none => match job.durationObj with
              | some d => d.end'
              | none => none
  { companyName := job.company
    companyDescription := job.companyDescription
    companyInfo := none
    title := job.position
    level := none
    location := job.location.getD ""
    startDate := normalizeDate startDate
    endDate := match endDate with
               | some e => if e = "" then none else some (normalizeDate e)
               | none => none
    durationMonths := calculateMonths nowY nowM0 startDate endDate
    technologies := job.technologies.getD []
    projects := []
    achievements := (job.achievements.getD []).map fun desc =>
      { description := desc, quantifiable := some (containsDigit desc) }
    responsibilities := job.descriptionList.getD []
    relevanceWeights := none
    keywords := none
    workStyle := none }

/-- The message of the tagged error thrown by `normalizeJob`. -/
def unknownJobFormatMsg : String := "Unknown job format"

/-- `normalizeJob`: dispatch on the type guards; the `throw` is modelled as
`Except.error`. -/
def normalizeJob (nowY nowM0 : ℤ) (job : Job) : Except String NormalizedJob :=
  if isEnhancedJob job then
    match job with
    | .enhanced e => .ok (normalizeEnhancedJob nowY nowM0 e)
    | _ => .error unknownJobFormatMsg
  else if isBasicJob job then
    match job with
    | .basic b => .ok (normalizeBasicJob nowY nowM0 b)
    | _ => .error unknownJobFormatMsg
  else .error unknownJobFormatMsg

/-- `getJobEndYear`: current year for a missing (or falsy empty) end date,
else `parseInt` of the year component; `none` models the `NaN` of an
unparsable year. -/
def getJobEndYear (now : ℤ) (job : NormalizedJob) : Option ℤ :=
  match job.endDate with
  | none => some now
  | some s =>
    if s = "" then some now
    else jsParseInt ((splitOnChar '-' s).headD "")

/-- `getAllTechnologies` (`src/matcher/normalizer.ts`). -/
def getAllTechnologies (jobs : List NormalizedJob) : List String :=
  dedup (jobs.map NormalizedJob.technologies).flatten

/-! ## Scorers (`src/matcher/scorers.ts`) -/

/-- `scoreTechnologyMatch`: coverage of required technologies plus
non-buzzword keywords, neutral 0.5 with no requirements, up to +0.2 for
preferred coverage, capped at 1. -/
def scoreTechnologyMatch (job : NormalizedJob) (requirements : JobRequirements) : ℚ :=
  let allRequired :=
    requirements.requiredTechnologies ++
      requirements.keywords.filter fun k => !requirements.buzzwords.contains k
  let matched := (findMatchingTechs job.technologies allRequired).1
  if allRequired.length = 0 then 0.5
  else
    let base : ℚ := (matched.length : ℚ) / (allRequired.length : ℚ)
    let prefMatched :=
      (findMatchingTechs job.technologies requirements.preferredTechnologies).1
    let score :=
      if requirements.preferredTechnologies.length > 0 then
        base + ((prefMatched.length : ℚ) / (requirements.preferredTechnologies.length : ℚ)) * 0.2
      else base
    min 1 score

/-- The industry/domain cross-containment bonus of `scoreDomainMatch`. -/
def domainIndustryBonus (job : NormalizedJob) (requirements : JobRequirements) : ℚ :=
  match job.companyInfo, requirements.domain with
  | some ci, some d =>
    match ci.industry with
    | some ind =>
      let jobIndustry := lowerStr ind
      let reqDomain := lowerStr (JobDomain.str d)
      if jsIncludes jobIndustry reqDomain || jsIncludes reqDomain jobIndustry then 0.3
      else 0
    | none => 0
  | _, _ => 0

/-- The relevance-weight contributions of `scoreDomainMatch` (each weight
read with `?? 0`). -/
def domainWeightBonus (job : NormalizedJob) (requirements : JobRequirements) : ℚ :=
  match job.relevanceWeights with
  | none => 0
  | some weights =>
    (if requirements.domain = some .fintech ∨ requirements.domain = some .crypto then
      (weights.mobile.getD 0) * 0.1
     else 0) +
    (if requirements.companyType = some .startup ∨ requirements.companyType = some .scaleup then
      (weights.startup.getD 0) * 0.15
     else 0) +
    (if requirements.companyType = some .enterprise ∨ requirements.companyType = some .faang then
      (weights.enterprise.getD 0) * 0.15
     else 0) +
    (if requirements.leadershipRequired then (weights.leadership.getD 0) * 0.1
     else 0)

/-- The declared-domain-keywords bonus of `scoreDomainMatch`. -/
def domainKeywordBonus (job : NormalizedJob) (requirements : JobRequirements) : ℚ :=
  match job.keywords, requirements.domain with
  | some kw, some d =>
    match kw.domains with
    | some domains =>
      if domains.any (fun x => jsIncludes (lowerStr x) (lowerStr (JobDomain.str d))) then 0.2
      else 0
    | none => 0
  | _, _ => 0

/-- `scoreDomainMatch`: neutral 0.5 plus the three bonus groups, capped
at 1. -/
def scoreDomainMatch (job : NormalizedJob) (requirements : JobRequirements) : ℚ :=
  min 1 (0.5 + domainIndustryBonus job requirements +
    domainWeightBonus job requirements + domainKeywordBonus job requirements)

/-- The `levelOrder` array of `scoreSeniorityMatch` (note `lead` before
`principal`, unlike the type declaration order). -/
def levelOrder : List String :=
  ["junior", "mid", "senior", "staff", "lead", "principal", "manager", "director"]

/-- Core of `scoreSeniorityMatch` on the level value (`job.level ?? 'mid'`)
and the requirement seniority. -/
def seniorityScoreOf (jobLevel : Option RoleLevel) (reqLevel : SeniorityLevel) : ℚ :=
  let jobIndex := jsIndexOf levelOrder ((jobLevel.getD .mid).str)
  let reqIndex := jsIndexOf levelOrder reqLevel.str
  if jobIndex = -1 ∨ reqIndex = -1 then 0.5
  else if jobIndex = reqIndex then 1.0
  else if jobIndex = reqIndex + 1 then 0.9
  else if jobIndex = reqIndex - 1 then 0.7
  else if jobIndex < reqIndex - 1 then
    max 0.3 (0.7 - ((reqIndex - jobIndex - 1) : ℚ) * 0.15)
  else 0.8

/-- `scoreSeniorityMatch`. -/
def scoreSeniorityMatch (job : NormalizedJob) (requirements : JobRequirements) : ℚ :=
  seniorityScoreOf job.level requirements.seniority

/-- `scoreRecency`: 1.0 within two years of `now`, then linear decay
floored at 0.2.  `none` models the `NaN` produced by an end date with no
parseable year. -/
def scoreRecency (now : ℤ) (config : MatchConfig) (job : NormalizedJob) : Option ℚ :=
  (getJobEndYear now job).map fun jobEndYear =>
    let yearsAgo : ℤ := now - jobEndYear
    if yearsAgo ≤ 2 then 1.0
    else max 0.2 (1 - config.recencyDecay * ((yearsAgo : ℚ) - 2))

/-- JS truthiness of an optional number: defined and non-zero. -/
def truthyWeight (o : Option ℚ) : Option ℚ :=
  match o with
  | some v => if v = 0 then none else some v
  | none => none

/-- Whether the mobile relevance weight is applicable: some required
technology is literally one of the five mobile names. -/
def mobileCondition (requirements : JobRequirements) : Bool :=
  requirements.requiredTechnologies.any fun t =>
    (["Swift", "Kotlin", "iOS", "Android", "React Native"] : List String).contains t

/-- Whether the leadership relevance weight is applicable. -/
def leadershipCondition (requirements : JobRequirements) : Bool :=
  requirements.leadershipRequired || requirements.seniority == .lead ||
    requirements.seniority == .manager

/-- The applicable, truthy (non-zero) relevance weights accumulated by
`scoreRelevanceWeights`, in source order; the enterprise branch sits in the
`else` of the startup test. -/
def relevancePicks (requirements : JobRequirements) (weights : RelevanceWeights) :
    List ℚ :=
  ((if mobileCondition requirements then truthyWeight weights.mobile else none) ::
   (if leadershipCondition requirements then truthyWeight weights.leadership else none) ::
   (if requirements.companyType = some .startup ∨ requirements.companyType = some .scaleup then
      truthyWeight weights.startup
    else if requirements.companyType = some .enterprise ∨ requirements.companyType = some .faang then
      truthyWeight weights.enterprise
    else none) :: []).filterMap id

/-- `scoreRelevanceWeights`: average of the applicable truthy weights,
neutral 0.5 when there is no weight map or no applicable factor. -/
def scoreRelevanceWeights (job : NormalizedJob) (requirements : JobRequirements) : ℚ :=
  match job.relevanceWeights with
  | none => 0.5
  | some weights =>
    let picks := relevancePicks requirements weights
    if picks.length = 0 then 0.5
    else picks.sum / (picks.length : ℚ)

/-- `scoreJob`: the five sub-scores, their weighted total, and the matching
details.  `none` models the `NaN`-propagating case of an end date with no
parseable year. -/
def scoreJob (now : ℤ) (job : NormalizedJob) (requirements : JobRequirements)
    (config : MatchConfig) : Option JobScore :=
  (scoreRecency now config job).map fun recencyScore =>
    let techScore := scoreTechnologyMatch job requirements
    let domainScore := scoreDomainMatch job requirements
    let seniorityScore := scoreSeniorityMatch job requirements
    let relevanceScore := scoreRelevanceWeights job requirements
    let totalScore :=
      techScore * config.weights.technology +
      domainScore * config.weights.domain +
      seniorityScore * config.weights.seniority +
      recencyScore * config.weights.recency +
      relevanceScore * config.weights.relevance
    let allRequired :=
      requirements.requiredTechnologies ++ requirements.preferredTechnologies
    let mm := findMatchingTechs job.technologies allRequired
    let matchedKeywords := requirements.keywords.filter fun k =>
      job.technologies.any (fun t => techMatches t k) ||
        job.responsibilities.any fun r => jsIncludes (lowerStr r) (lowerStr k)
    { jobId := job.companyName ++ "-" ++ job.startDate
      companyName := job.companyName
      title := job.title
      scores :=
        { technologyMatch := techScore
          domainMatch := domainScore
          seniorityMatch := seniorityScore
          recency := recencyScore
          relevanceWeight := relevanceScore }
      totalScore := totalScore
      matchedTechnologies := mm.1
      missingTechnologies := mm.2
      matchedKeywords := matchedKeywords }

/-- `scoreProject`: base 0.5 plus technology / impact / leadership bonuses,
capped at 1. -/
def scoreProject (project : Project) (requirements : JobRequirements) : ScoredProject :=
  let matched :=
    match project.technologies with
    | some techs =>
      (findMatchingTechs techs
        (requirements.requiredTechnologies ++ requirements.preferredTechnologies)).1
    | none => []
  let techBonus : ℚ := (matched.length : ℚ) * 0.1
  let techReasons : List String :=
    if matched.length > 0 then ["Uses " ++ String.intercalate ", " matched] else []
  let impactBonus : ℚ :=
    match project.impact with
    | some impact =>
      (if requirements.keywords.any (fun k => jsIncludes (lowerStr impact) (lowerStr k)) then 0.15
       else 0) +
      (if hasDigitPercent impact then 0.1 else 0)
    | none => 0
  let impactReasons : List String :=
    match project.impact with
    | some impact =>
      (if requirements.keywords.any (fun k => jsIncludes (lowerStr impact) (lowerStr k)) then
        ["Relevant impact"] else []) ++
      (if hasDigitPercent impact then ["Quantified impact"] else [])
    | none => []
  let leadBonus : ℚ :=
    match project.teamSize with
    | some ts => if requirements.leadershipRequired && ts > 1 then 0.1 else 0
    | none => 0
  let leadReasons : List String :=
    match project.teamSize with
    | some ts =>
      if requirements.leadershipRequired && ts > 1 then
        ["Led team of " ++ toString ts] else []
    | none => []
  let reasons := techReasons ++ impactReasons ++ leadReasons
  { project := project
    score := min 1 (0.5 + techBonus + impactBonus + leadBonus)
    matchedTechnologies := matched
    relevanceReason :=
      if reasons.isEmpty then "General relevance" else String.intercalate "; " reasons }

/-- `scoreAchievement`: base 0.5 plus keyword / quantification / category /
leadership / impact bonuses, capped at 1. -/
def scoreAchievement (achievement : Achievement) (requirements : JobRequirements) :
    ScoredAchievement :=
  let descLower := lowerStr achievement.description
  let matchedKeywords :=
    requirements.keywords.filter fun k => jsIncludes descLower (lowerStr k)
  let kwBonus : ℚ := if matchedKeywords.length > 0 then (matchedKeywords.length : ℚ) * 0.1 else 0
  let quantBonus : ℚ :=
    if achievement.quantifiable.getD false || containsDigit achievement.description then 0.2
    else 0
  let categoryBonus : ℚ :=
    match achievement.category with
    | some c =>
      (if requirements.leadershipRequired && c == .team then 0.15 else 0) +
      (if c == .performance || c == .quality || c == .business then 0.1 else 0)
    | none => 0
  let leadBonus : ℚ :=
    if requirements.leadershipRequired && hasLeadershipKeyword achievement.description then
      0.15
    else 0
  let impactBonus : ℚ := if achievement.impact.isSome then 0.1 else 0
  let reasons :=
    (if matchedKeywords.length > 0 then
      ["Mentions " ++ String.intercalate ", " matchedKeywords] else []) ++
    (if achievement.quantifiable.getD false || containsDigit achievement.description then
      ["Quantified result"] else []) ++
    (match achievement.category with
     | some c =>
       (if requirements.leadershipRequired && c == .team then ["Team achievement"] else []) ++
       (if c == .performance || c == .quality || c == .business then
         [c.str ++ " achievement"] else [])
     | none => []) ++
    (if requirements.leadershipRequired && hasLeadershipKeyword achievement.description then
      ["Leadership demonstrated"] else []) ++
    (if achievement.impact.isSome then ["Has impact statement"] else [])
  { achievement := achievement
    score := min 1 (0.5 + kwBonus + quantBonus + categoryBonus + leadBonus + impactBonus)
    relevanceReason :=
      if reasons.isEmpty then "General achievement" else String.intercalate "; " reasons }

/-! ## Selector (`src/matcher/selector.ts`) -/

/-- Descending order on project scores; the comparator
`(a, b) => b.score - a.score`.  `Array.prototype.sort` is stable, as is
`List.insertionSort`. -/
def projGE (a b : ScoredProject) : Prop := b.score ≤ a.score

instance : DecidableRel projGE := fun a b => inferInstanceAs (Decidable (b.score ≤ a.score))

instance : IsTotal ScoredProject projGE := ⟨fun a b => le_total b.score a.score⟩

instance : IsTrans ScoredProject projGE :=
  ⟨fun _ _ _ h1 h2 => le_trans h2 h1⟩

/-- Descending order on achievement scores. -/
def achGE (a b : ScoredAchievement) : Prop := b.score ≤ a.score

instance : DecidableRel achGE := fun a b => inferInstanceAs (Decidable (b.score ≤ a.score))

instance : IsTotal ScoredAchievement achGE := ⟨fun a b => le_total b.score a.score⟩

instance : IsTrans ScoredAchievement achGE :=
  ⟨fun _ _ _ h1 h2 => le_trans h2 h1⟩

/-- All projects of all jobs, scored, in source iteration order. -/
def projectPool (jobs : List NormalizedJob) (requirements : JobRequirements) :
    List ScoredProject :=
  (jobs.map fun job => job.projects.map fun p => scoreProject p requirements).flatten

/-- `selectProjects`: sort the pool descending by score, then take
`min(max(minToShow, count(score > 0.5)), maxToShow)` items. -/
def selectProjects (jobs : List NormalizedJob) (requirements : JobRequirements)
    (config : MatchConfig) : List ScoredProject :=
  let allProjects := (projectPool jobs requirements).insertionSort projGE
  let count :=
    min (max config.minProjectsToShow
      (allProjects.countP fun p => decide ((0.5 : ℚ) < p.score)))
      config.maxProjectsToShow
  allProjects.take count

/-- All achievements of all jobs, scored, in source iteration order. -/
def achievementPool (jobs : List NormalizedJob) (requirements : JobRequirements) :
    List ScoredAchievement :=
  (jobs.map fun job => job.achievements.map fun a => scoreAchievement a requirements).flatten

/-- `selectAchievements`. -/
def selectAchievements (jobs : List NormalizedJob) (requirements : JobRequirements)
    (config : MatchConfig) : List ScoredAchievement :=
  let allAchievements := (achievementPool jobs requirements).insertionSort achGE
  let count :=
    min (max config.minAchievementsToShow
      (allAchievements.countP fun a => decide ((0.5 : ℚ) < a.score)))
      config.maxAchievementsToShow
  allAchievements.take count

/-- `calculateSkillScore`: partition base bonus, level bonus, recency
bonus, featured bonus, want-to-use bonus, experience bonus, capped at 1. -/
def calculateSkillScore (now : ℤ) (skill : Skill) (skills : SkillsData)
    (isRequired isPreferred : Bool) : ℚ :=
  let baseBonus : ℚ := if isRequired then 0.4 else if isPreferred then 0.25 else 0
  let levelBonus : ℚ :=
    match skill.level with
    | .expert => 0.25
    | .advanced => 0.15
    | .intermediate => 0.1
    | .beginner => 0.05
  let yearsAgo : ℤ := now - skill.lastUsed
  let recencyBonus : ℚ :=
    if yearsAgo = 0 then 0.15 else if yearsAgo ≤ 2 then 0.1
    else if yearsAgo ≤ 5 then 0.05 else 0
  let featuredBonus : ℚ := if isFeatured skill.name skills then 0.1 else 0
  let wantBonus : ℚ := if skill.wantToUse then 0.05 else 0
  let expBonus : ℚ :=
    if skill.yearsUsed ≥ 5 then 0.1 else if skill.yearsUsed ≥ 3 then 0.05 else 0
  min 1 (baseBonus + levelBonus + recencyBonus + featuredBonus + wantBonus + expBonus)

/-- The scored-skill candidate list assembled by `selectSkills` before
sorting: required skills, then preferred skills, then the other skills that
survive the deprecated / featured-expert-wantToUse filters. -/
def skillCandidates (now : ℤ) (skills : SkillsData) (requirements : JobRequirements) :
    List ScoredSkill :=
  let parts := findMatchingSkills skills
    requirements.requiredTechnologies requirements.preferredTechnologies
  (parts.1.map fun skill =>
    { skill := skill
      score := calculateSkillScore now skill skills true false
      isRequired := true
      isPreferred := false }) ++
  (parts.2.1.map fun skill =>
    { skill := skill
      score := calculateSkillScore now skill skills false true
      isRequired := false
      isPreferred := true }) ++
  ((parts.2.2.filter fun skill =>
      !isDeprecated skill.name skills &&
        (isFeatured skill.name skills || skill.level == .expert || skill.wantToUse)).map
    fun skill =>
      { skill := skill
        score := calculateSkillScore now skill skills false false
        isRequired := false
        isPreferred := false })

/-- Group rank encoded by the skill comparator: required first, then
preferred, then the rest. -/
def skillRank (s : ScoredSkill) : ℕ :=
  (if s.isRequired then 0 else 2) + (if s.isPreferred then 0 else 1)

/-- The total preorder realized by the skill comparator: by group rank
(required, preferred, other), then descending by score. -/
def skillGE (a b : ScoredSkill) : Prop :=
  skillRank a < skillRank b ∨ (skillRank a = skillRank b ∧ b.score ≤ a.score)

instance : DecidableRel skillGE := fun _ _ =>
  inferInstanceAs (Decidable (_ ∨ _))

instance : IsTotal ScoredSkill skillGE := by
  constructor
  intro a b
  rcases lt_trichotomy (skillRank a) (skillRank b) with h | h | h
  · exact .inl (.inl h)
  · rcases le_total b.score a.score with h' | h'
    · exact .inl (.inr ⟨h, h'⟩)
    · exact .inr (.inr ⟨h.symm, h'⟩)
  · exact .inr (.inl h)

instance : IsTrans ScoredSkill skillGE := by
  constructor
  intro a b c hab hbc
  rcases hab with h1 | ⟨e1, s1⟩
  · rcases hbc with h2 | ⟨e2, _⟩
    · exact .inl (h1.trans h2)
    · exact .inl (e2 ▸ h1)
  · rcases hbc with h2 | ⟨e2, s2⟩
    · exact .inl (e1 ▸ h2)
    · exact .inr ⟨e1.trans e2, s2.trans s1⟩

/-- `selectSkills`: score the candidates, sort by the required / preferred
/ score comparator, then take
`min(max(minToShow, count(required or preferred)), maxToShow)` items. -/
def selectSkills (now : ℤ) (skills : SkillsData) (requirements : JobRequirements)
    (config : MatchConfig) : List ScoredSkill :=
  let scoredSkills := (skillCandidates now skills requirements).insertionSort skillGE
  let count :=
    min (max config.minSkillsToShow
      (scoredSkills.countP fun s => s.isRequired || s.isPreferred))
      config.maxSkillsToShow
  scoredSkills.take count

/-- Coverage lookup for one technology: first the matched-skill set, then
every job's technology list. -/
def coverageFor (matchedSkills : List Skill) (jobs : List NormalizedJob)
    (tech : String) : CoverageEntry :=
  match matchedSkills.find? (fun s => techMatches s.name tech) with
  | some skillMatch =>
    { tech := tech, covered := true, source := some ("skill: " ++ skillMatch.name) }
  | none =>
    match jobs.find? (fun job => job.technologies.any fun t => techMatches t tech) with
    | some job =>
      { tech := tech, covered := true, source := some ("job: " ++ job.companyName) }
    | none => { tech := tech, covered := false }

/-- `analyzeTechnologyCoverage`: per-technology coverage rows plus the
weighted overall percentage, whose denominators fall back to 1 on empty
lists (`length || 1`). -/
def analyzeTechnologyCoverage (skills : SkillsData) (jobs : List NormalizedJob)
    (requirements : JobRequirements) : TechnologyCoverage :=
  let parts := findMatchingSkills skills
    requirements.requiredTechnologies requirements.preferredTechnologies
  let requiredCoverage :=
    requirements.requiredTechnologies.map (coverageFor parts.1 jobs)
  let preferredCoverage :=
    requirements.preferredTechnologies.map (coverageFor parts.2.1 jobs)
  let reqCovered := requiredCoverage.countP (·.covered)
  let prefCovered := preferredCoverage.countP (·.covered)
  let reqTotal : ℚ :=
    if requiredCoverage.length = 0 then 1 else (requiredCoverage.length : ℚ)
  let prefTotal : ℚ :=
    if preferredCoverage.length = 0 then 1 else (preferredCoverage.length : ℚ)
  { required := requiredCoverage
    preferred := preferredCoverage
    coveragePercent :=
      jsRound ((((reqCovered : ℚ) / reqTotal) * 0.7 +
        ((prefCovered : ℚ) / prefTotal) * 0.3) * 100) }

/-! ## Validity predicates and concrete sample inputs -/

/-- An optional author-supplied weight that, when supplied, lies in
`[0,1]`. -/
def wIn01 (o : Option ℚ) : Prop := ∀ v, o = some v → 0 ≤ v ∧ v ≤ 1

/-- Every supplied relevance weight of the (optional) map lies in `[0,1]`:
the validity condition the spec places on author-supplied weights. -/
def validRW (o : Option RelevanceWeights) : Prop :=
  ∀ w, o = some w →
    wIn01 w.mobile ∧ wIn01 w.web ∧ wIn01 w.backend ∧ wIn01 w.frontend ∧
      wIn01 w.fullstack ∧ wIn01 w.leadership ∧ wIn01 w.startup ∧ wIn01 w.enterprise

/-- `stripZeros`: replace each supplied-but-zero weight by an absent one
(this is `truthyWeight` applied fieldwise). -/
def stripZeros (w : RelevanceWeights) : RelevanceWeights where
  mobile := truthyWeight w.mobile
  web := truthyWeight w.web
  backend := truthyWeight w.backend
  frontend := truthyWeight w.frontend
  fullstack := truthyWeight w.fullstack
  leadership := truthyWeight w.leadership
  startup := truthyWeight w.startup
  enterprise := truthyWeight w.enterprise

/-- A skills inventory with no skills at all. -/
def emptySkills : SkillsData := { categories := {} }

/-- Requirements with empty technology lists (and no keywords). -/
def emptyReqs : JobRequirements := { seniority := .senior }

/-- A minimal normalized job with no optional data and no end date. -/
def plainJob : NormalizedJob := { companyName := "Acme", title := "Dev" }

/-! ## Claim C9: idempotence of `normalizeTechName` on canonical names -/

/-- C9: for every technology string that exactly equals a canonical name of
the static alias table, `normalizeTechName` is idempotent. -/
theorem normalizeTechName_idempotent_on_canonicals :
    ∀ c ∈ TECH_ALIASES.map Prod.fst,
      normalizeTechName (normalizeTechName c) = normalizeTechName c := by
  decide

/-- Witness for C9 at the canonical name "PostgreSQL". -/
theorem normalizeTechName_idempotent_witness :
    "PostgreSQL" ∈ TECH_ALIASES.map Prod.fst ∧
      normalizeTechName (normalizeTechName "PostgreSQL") =
        normalizeTechName "PostgreSQL" :=
  ⟨by decide, normalizeTechName_idempotent_on_canonicals "PostgreSQL" (by decide)⟩

/-! ## Claims C4 and C5: seniority scoring -/

/-- `scoreSeniorityMatch` only reads the level and the requirement
seniority. -/
theorem scoreSeniorityMatch_eq (job : NormalizedJob) (reqs : JobRequirements) :
    scoreSeniorityMatch job reqs = seniorityScoreOf job.level reqs.seniority := rfl

theorem idx_junior : jsIndexOf levelOrder "junior" = 0 := rfl
theorem idx_mid : jsIndexOf levelOrder "mid" = 1 := rfl
theorem idx_senior : jsIndexOf levelOrder "senior" = 2 := rfl
theorem idx_staff : jsIndexOf levelOrder "staff" = 3 := rfl
theorem idx_lead : jsIndexOf levelOrder "lead" = 4 := rfl
theorem idx_principal : jsIndexOf levelOrder "principal" = 5 := rfl
theorem idx_manager : jsIndexOf levelOrder "manager" = 6 := rfl
theorem idx_director : jsIndexOf levelOrder "director" = 7 := rfl

/-- Exhaustive facts about `seniorityScoreOf` used by C4: it never takes
the unknown-level neutral value 0.5. -/
theorem seniorityScoreOf_ne_half :
    ∀ (ol : Option RoleLevel) (s : SeniorityLevel), seniorityScoreOf ol s ≠ 0.5 := by
  intro ol s
  rcases ol with _ | l
  all_goals cases s
  all_goals try cases l
  all_goals
    norm_num [seniorityScoreOf, RoleLevel.str, SeniorityLevel.str, idx_junior,
      idx_mid, idx_senior, idx_staff, idx_lead, idx_principal, idx_manager,
      idx_director, max_def]

/-- C4 counterexample: a normalized job with an absent level, scored
against a `senior` requirement, yields 0.7, not the neutral 0.5 the claim
demands for absent levels. -/
theorem absentLevel_counterexample :
    plainJob.level = none ∧
      scoreSeniorityMatch plainJob emptyReqs = 0.7 ∧
      scoreSeniorityMatch plainJob emptyReqs ≠ 0.5 := by
  refine ⟨rfl, ?_, ?_⟩ <;>
    norm_num [scoreSeniorityMatch, plainJob, emptyReqs, seniorityScoreOf,
      RoleLevel.str, SeniorityLevel.str, idx_mid, idx_senior]

/-- C4 (amended): a job with an absent level is scored exactly as a `mid`
job (the `?? 'mid'` default), and `scoreSeniorityMatch` never returns the
0.5 unknown-level neutral — both level inputs always lie on the eight-value
scale, so the `indexOf === -1` branch is unreachable. -/
theorem absentLevel_scored_as_mid :
    ∀ (job : NormalizedJob) (reqs : JobRequirements), job.level = none →
      scoreSeniorityMatch job reqs =
        scoreSeniorityMatch { job with level := some .mid } reqs ∧
      scoreSeniorityMatch job reqs ≠ 0.5 := by
  intro job reqs h
  rw [scoreSeniorityMatch_eq, scoreSeniorityMatch_eq, h]
  exact ⟨rfl, seniorityScoreOf_ne_half _ _⟩

/-- Witness for C4 (amended) at a concrete absent-level job. -/
theorem absentLevel_scored_as_mid_witness :
    plainJob.level = none ∧
      scoreSeniorityMatch plainJob emptyReqs =
        scoreSeniorityMatch { plainJob with level := some .mid } emptyReqs ∧
      scoreSeniorityMatch plainJob emptyReqs ≠ 0.5 :=
  ⟨rfl, (absentLevel_scored_as_mid plainJob emptyReqs rfl).1,
    (absentLevel_scored_as_mid plainJob emptyReqs rfl).2⟩

/-- Exhaustive level-pair facts behind C5. -/
theorem seniorityScoreOf_cases :
    ∀ (l : RoleLevel) (s : SeniorityLevel),
      (jsIndexOf levelOrder l.str = jsIndexOf levelOrder s.str →
        seniorityScoreOf (some l) s = 1) ∧
      (jsIndexOf levelOrder l.str = jsIndexOf levelOrder s.str + 1 →
        seniorityScoreOf (some l) s = 0.9) ∧
      (jsIndexOf levelOrder l.str = jsIndexOf levelOrder s.str - 1 →
        seniorityScoreOf (some l) s = 0.7) ∧
      (jsIndexOf levelOrder l.str < jsIndexOf levelOrder s.str - 1 →
        seniorityScoreOf (some l) s =
          max 0.3 (0.7 -
            ((jsIndexOf levelOrder s.str - jsIndexOf levelOrder l.str - 1 : ℤ) : ℚ) * 0.15)) ∧
      (jsIndexOf levelOrder s.str + 1 < jsIndexOf levelOrder l.str →
        seniorityScoreOf (some l) s = 0.8) ∧
      (l = .junior → s = .senior → seniorityScoreOf (some l) s = 0.55) := by
  intro l s
  cases l <;> cases s <;>
    norm_num [seniorityScoreOf, RoleLevel.str, SeniorityLevel.str, idx_junior,
      idx_mid, idx_senior, idx_staff, idx_lead, idx_principal, idx_manager,
      idx_director, max_def] <;>
    decide

/-- C5: `scoreSeniorityMatch` realizes the ordinal-scale formula of the
spec — 1.0 on exact match, 0.9 one level above, 0.7 one level below,
`max(0.3, 0.7 - 0.15*(gap-1))` more than one level below, 0.8 more than
one level above; in particular junior vs senior scores 0.55. -/
theorem scoreSeniorityMatch_formula :
    ∀ (job : NormalizedJob) (reqs : JobRequirements) (l : RoleLevel),
      job.level = some l →
      (jsIndexOf levelOrder l.str = jsIndexOf levelOrder reqs.seniority.str →
        scoreSeniorityMatch job reqs = 1) ∧
      (jsIndexOf levelOrder l.str = jsIndexOf levelOrder reqs.seniority.str + 1 →
        scoreSeniorityMatch job reqs = 0.9) ∧
      (jsIndexOf levelOrder l.str = jsIndexOf levelOrder reqs.seniority.str - 1 →
        scoreSeniorityMatch job reqs = 0.7) ∧
      (jsIndexOf levelOrder l.str < jsIndexOf levelOrder reqs.seniority.str - 1 →
        scoreSeniorityMatch job reqs =
          max 0.3 (0.7 -
            ((jsIndexOf levelOrder reqs.seniority.str -
              jsIndexOf levelOrder l.str - 1 : ℤ) : ℚ) * 0.15)) ∧
      (jsIndexOf levelOrder reqs.seniority.str + 1 < jsIndexOf levelOrder l.str →
        scoreSeniorityMatch job reqs = 0.8) ∧
      (l = .junior → reqs.seniority = .senior → scoreSeniorityMatch job reqs = 0.55) := by
  intro job reqs l h
  rw [scoreSeniorityMatch_eq, h]
  exact seniorityScoreOf_cases l reqs.seniority

/-- Witness for C5: a junior-level job against a senior requirement scores
0.55. -/
theorem scoreSeniorityMatch_formula_witness :
    scoreSeniorityMatch { plainJob with level := some .junior } emptyReqs = 0.55 :=
  (scoreSeniorityMatch_formula { plainJob with level := some .junior } emptyReqs
    .junior rfl).2.2.2.2.2 rfl rfl

/-! ## Claim C8: recency scoring -/

/-- C8: the default decay is 0.1; a job whose effective end year is at most
2 years back scores 1.0, otherwise `max(0.2, 1 - decay*(yearsAgo-2))`; at
the default decay a job ending 5 years ago scores 0.7. -/
theorem scoreRecency_formula :
    DEFAULT_MATCH_CONFIG.recencyDecay = 0.1 ∧
    ∀ (now : ℤ) (cfg : MatchConfig) (job : NormalizedJob) (y : ℤ),
      getJobEndYear now job = some y →
      (now - y ≤ 2 → scoreRecency now cfg job = some 1) ∧
      (2 < now - y →
        scoreRecency now cfg job =
          some (max 0.2 (1 - cfg.recencyDecay * (((now - y : ℤ) : ℚ) - 2)))) ∧
      (cfg.recencyDecay = 0.1 → now - y = 5 → scoreRecency now cfg job = some 0.7) := by
  refine ⟨rfl, ?_⟩
  intro now cfg job y h
  refine ⟨?_, ?_, ?_⟩
  · intro hle
    simp only [scoreRecency, h, Option.map_some']
    rw [if_pos hle]
    norm_num
  · intro hgt
    simp only [scoreRecency, h, Option.map_some']
    rw [if_neg (not_le.mpr hgt)]
  · intro hd h5
    have hgt : ¬(now - y ≤ 2) := by omega
    simp only [scoreRecency, h, Option.map_some', hgt, if_false]
    rw [hd, h5]
    norm_num

/-- A normalized job whose end date is March 2020. -/
def recencyJob : NormalizedJob := { plainJob with endDate := some "2020-03" }

/-- Witness for C8: with the default config, `recencyJob` seen from 2025
(5 years later) scores 0.7. -/
theorem scoreRecency_formula_witness :
    getJobEndYear 2025 recencyJob = some 2020 ∧
      scoreRecency 2025 DEFAULT_MATCH_CONFIG recencyJob = some 0.7 :=
  ⟨rfl, (scoreRecency_formula.2 2025 DEFAULT_MATCH_CONFIG recencyJob 2020 rfl).2.2
    rfl (by norm_num)⟩

/-! ## Claim C10: zero relevance weights behave as absent ones -/

theorem truthyWeight_idem (o : Option ℚ) :
    truthyWeight (truthyWeight o) = truthyWeight o := by
  rcases o with _ | v
  · rfl
  · by_cases h : v = 0 <;> simp [truthyWeight, h]

theorem relevancePicks_stripZeros (reqs : JobRequirements) (w : RelevanceWeights) :
    relevancePicks reqs (stripZeros w) = relevancePicks reqs w := by
  simp only [relevancePicks, stripZeros, truthyWeight_idem]

/-- C10: a supplied-but-zero relevance weight contributes neither to the
sum nor to the factor count — replacing all zero weights by absent ones
does not change `scoreRelevanceWeights` — and a job all of whose applicable
weights are zero or absent receives the neutral 0.5. -/
theorem scoreRelevanceWeights_zero_as_absent :
    ∀ (job : NormalizedJob) (reqs : JobRequirements) (w : RelevanceWeights),
      job.relevanceWeights = some w →
      (scoreRelevanceWeights { job with relevanceWeights := some (stripZeros w) } reqs =
        scoreRelevanceWeights job reqs) ∧
      ((mobileCondition reqs = true → w.mobile = none ∨ w.mobile = some 0) →
       (leadershipCondition reqs = true → w.leadership = none ∨ w.leadership = some 0) →
       (reqs.companyType = some .startup ∨ reqs.companyType = some .scaleup →
         w.startup = none ∨ w.startup = some 0) →
       (reqs.companyType = some .enterprise ∨ reqs.companyType = some .faang →
         w.enterprise = none ∨ w.enterprise = some 0) →
       scoreRelevanceWeights job reqs = 0.5) := by
  intro job reqs w h
  constructor
  · simp [scoreRelevanceWeights, h, relevancePicks_stripZeros]
  · intro h1 h2 h3 h4
    have m1 : (if mobileCondition reqs then truthyWeight w.mobile else none) = none := by
      by_cases hc : mobileCondition reqs = true
      · rcases h1 hc with h' | h' <;> simp [truthyWeight, h', hc]
      · simp [Bool.not_eq_true] at hc
        simp [hc]
    have m2 : (if leadershipCondition reqs then truthyWeight w.leadership else none) = none := by
      by_cases hc : leadershipCondition reqs = true
      · rcases h2 hc with h' | h' <;> simp [truthyWeight, h', hc]
      · simp [Bool.not_eq_true] at hc
        simp [hc]
    have m3 :
        (if reqs.companyType = some .startup ∨ reqs.companyType = some .scaleup then
          truthyWeight w.startup
         else if reqs.companyType = some .enterprise ∨ reqs.companyType = some .faang then
          truthyWeight w.enterprise
         else none) = none := by
      by_cases hs : reqs.companyType = some .startup ∨ reqs.companyType = some .scaleup
      · rcases h3 hs with h' | h' <;> simp [truthyWeight, h', hs]
      · by_cases he : reqs.companyType = some .enterprise ∨ reqs.companyType = some .faang
        · rcases h4 he with h' | h' <;> simp [truthyWeight, h', hs, he]
        · simp [hs, he]
    have hp : relevancePicks reqs w = [] := by
      simp only [relevancePicks, m1, m2, m3]
      rfl
    simp [scoreRelevanceWeights, h, hp]

/-- A relevance-weight map whose only entry is a zero mobile weight. -/
def zeroMobileW : RelevanceWeights := { mobile := some 0 }

/-- A job carrying `zeroMobileW`. -/
def jobZeroW : NormalizedJob := { plainJob with relevanceWeights := some zeroMobileW }

/-- Requirements that activate the mobile weight (Swift is required). -/
def reqsMobile : JobRequirements :=
  { seniority := .senior, requiredTechnologies := ["Swift"] }

/-- Witness for C10: a job whose only applicable weight is zero scores the
neutral 0.5, not 0. -/
theorem scoreRelevanceWeights_zero_as_absent_witness :
    scoreRelevanceWeights jobZeroW reqsMobile = 0.5 :=
  (scoreRelevanceWeights_zero_as_absent jobZeroW reqsMobile zeroMobileW rfl).2
    (fun _ => .inr rfl) (fun _ => .inl rfl) (fun _ => .inl rfl) (fun _ => .inl rfl)

/-! ## Claim C1: coverage percent at empty requirement lists -/

/-- C1 evaluation: with both requirement lists empty, the `|| 1`
denominators make both ratios `0/1`, so `analyzeTechnologyCoverage` reports
0 percent — not the 100 percent the spec's Scenario 5 (and the sibling
`calculateTechCoverage` / `meetsMinimumRequirements` code paths) promise. -/
theorem coverage_empty_reqs_zero :
    ∀ (skills : SkillsData) (jobs : List NormalizedJob) (reqs : JobRequirements),
      reqs.requiredTechnologies = [] → reqs.preferredTechnologies = [] →
      (analyzeTechnologyCoverage skills jobs reqs).coveragePercent = 0 ∧
      (analyzeTechnologyCoverage skills jobs reqs).coveragePercent ≠ 100 := by
  intro skills jobs reqs h1 h2
  have hv : (analyzeTechnologyCoverage skills jobs reqs).coveragePercent = 0 := by
    simp [analyzeTechnologyCoverage, h1, h2, jsRound]
    norm_num
  exact ⟨hv, by rw [hv]; norm_num⟩

/-- Witness for C1's evaluation at concrete empty inputs. -/
theorem coverage_empty_reqs_zero_witness :
    emptyReqs.requiredTechnologies = [] ∧ emptyReqs.preferredTechnologies = [] ∧
      (analyzeTechnologyCoverage emptySkills [] emptyReqs).coveragePercent = 0 :=
  ⟨rfl, rfl, (coverage_empty_reqs_zero emptySkills [] emptyReqs rfl rfl).1⟩

/-! ## Claim C7: the normalizer's only failure mode -/

/-- C7: `normalizeJob` returns its tagged "Unknown job format" error
exactly on records matching neither type guard, and on every basic or
enhanced job it returns a `NormalizedJob` without failing. -/
theorem normalizeJob_error_iff :
    ∀ (nowY nowM0 : ℤ) (job : Job),
      ((normalizeJob nowY nowM0 job = .error unknownJobFormatMsg) ↔
        (isEnhancedJob job = false ∧ isBasicJob job = false)) ∧
      (∀ b, job = .basic b →
        normalizeJob nowY nowM0 job = .ok (normalizeBasicJob nowY nowM0 b)) ∧
      (∀ e, job = .enhanced e →
        normalizeJob nowY nowM0 job = .ok (normalizeEnhancedJob nowY nowM0 e)) := by
  intro nowY nowM0 job
  rcases job with b | e | _ <;> simp [normalizeJob, isEnhancedJob, isBasicJob]

/-- Witness for C7: the malformed record is rejected with the tagged
error. -/
theorem normalizeJob_error_iff_witness :
    normalizeJob 2025 9 .unknownFormat = .error unknownJobFormatMsg :=
  (normalizeJob_error_iff 2025 9 .unknownFormat).1.mpr ⟨rfl, rfl⟩

/-! ## Claim C6: coverage percent is monotone in the job list -/

/-- The covered flag of a coverage row is the disjunction of a skill match
and a job match. -/
theorem coverageFor_covered (ms : List Skill) (jobs : List NormalizedJob) (tech : String) :
    (coverageFor ms jobs tech).covered =
      (ms.any (fun s => techMatches s.name tech) ||
       jobs.any fun job => job.technologies.any fun t => techMatches t tech) := by
  unfold coverageFor
  rcases h1 : ms.find? (fun s => techMatches s.name tech) with _ | sk
  · have a1 : ms.any (fun s => techMatches s.name tech) = false := by
      rw [List.any_eq_false]
      intro x hx
      exact fun hp => (List.find?_eq_none.mp h1 x hx) hp
    rcases h2 : jobs.find? (fun job => job.technologies.any fun t => techMatches t tech) with _ | j
    · have a2 : (jobs.any fun job => job.technologies.any fun t => techMatches t tech) = false := by
        rw [List.any_eq_false]
        intro x hx
        exact fun hp => (List.find?_eq_none.mp h2 x hx) hp
      simp [h1, h2, a1, a2]
    · have a2 : (jobs.any fun job => job.technologies.any fun t => techMatches t tech) = true := by
        rw [List.any_eq_true]
        refine ⟨j, List.mem_of_find?_eq_some h2, ?_⟩
        have h3 := List.find?_some h2
        exact h3
      simp [h1, h2, a1, a2]
  · have a1 : ms.any (fun s => techMatches s.name tech) = true := by
      rw [List.any_eq_true]
      refine ⟨sk, List.mem_of_find?_eq_some h1, ?_⟩
      have h3 := List.find?_some h1
      exact h3
    simp [h1, a1]

/-- Appending a job can only turn a coverage row from uncovered to
covered. -/
theorem coverageFor_covered_mono (ms : List Skill) (jobs : List NormalizedJob)
    (j : NormalizedJob) (tech : String)
    (h : (coverageFor ms jobs tech).covered = true) :
    (coverageFor ms (jobs ++ [j]) tech).covered = true := by
  rw [coverageFor_covered] at h ⊢
  rcases (Bool.or_eq_true _ _).mp h with h' | h'
  · simp [h']
  · simp [List.any_append, h']

/-- The covered-row count is monotone under appending a job. -/
theorem coverageCount_mono (ms : List Skill) (jobs : List NormalizedJob)
    (j : NormalizedJob) (L : List String) :
    (L.map (coverageFor ms jobs)).countP (·.covered) ≤
      (L.map (coverageFor ms (jobs ++ [j]))).countP (·.covered) := by
  rw [List.countP_map, List.countP_map]
  refine List.countP_mono_left fun x _ hp => ?_
  simp only [Function.comp] at hp ⊢
  exact coverageFor_covered_mono ms jobs j x hp

theorem jsRound_mono {a b : ℚ} (h : a ≤ b) : jsRound a ≤ jsRound b :=
  Int.floor_le_floor (by linarith)

/-- C6: appending any additional normalized job never decreases the
coverage percent reported by `analyzeTechnologyCoverage`, for every skills
inventory, requirements and job list. -/
theorem coveragePercent_mono_append :
    ∀ (skills : SkillsData) (jobs : List NormalizedJob) (j : NormalizedJob)
      (reqs : JobRequirements),
      (analyzeTechnologyCoverage skills jobs reqs).coveragePercent ≤
        (analyzeTechnologyCoverage skills (jobs ++ [j]) reqs).coveragePercent := by
  intro skills jobs j reqs
  unfold analyzeTechnologyCoverage
  simp only [List.length_map]
  apply jsRound_mono
  have hreq := coverageCount_mono
    (findMatchingSkills skills reqs.requiredTechnologies reqs.preferredTechnologies).1
    jobs j reqs.requiredTechnologies
  have hpref := coverageCount_mono
    (findMatchingSkills skills reqs.requiredTechnologies reqs.preferredTechnologies).2.1
    jobs j reqs.preferredTechnologies
  have hT1 : (0 : ℚ) <
      (if reqs.requiredTechnologies.length = 0 then 1
       else (reqs.requiredTechnologies.length : ℚ)) := by
    split_ifs with h
    · norm_num
    · exact_mod_cast Nat.pos_of_ne_zero h
  have hT2 : (0 : ℚ) <
      (if reqs.preferredTechnologies.length = 0 then 1
       else (reqs.preferredTechnologies.length : ℚ)) := by
    split_ifs with h
    · norm_num
    · exact_mod_cast Nat.pos_of_ne_zero h
  gcongr

/-! ## Claim C2: score bounds -/

theorem ite_nonneg {c : Prop} [Decidable c] {a b : ℚ} (ha : 0 ≤ a) (hb : 0 ≤ b) :
    0 ≤ if c then a else b := by
  split_ifs <;> assumption

theorem wIn01_getD_nonneg {o : Option ℚ} (h : wIn01 o) : 0 ≤ o.getD 0 := by
  rcases o with _ | v
  · simp
  · simpa using (h v rfl).1

theorem findMatchingTechs_fst_length_le (cand req : List String) :
    ((findMatchingTechs cand req).1).length ≤ req.length := by
  simpa [findMatchingTechs] using List.length_filter_le _ _

theorem scoreTechnologyMatch_bounds (job : NormalizedJob) (reqs : JobRequirements) :
    0 ≤ scoreTechnologyMatch job reqs ∧ scoreTechnologyMatch job reqs ≤ 1 := by
  unfold scoreTechnologyMatch
  by_cases h : (reqs.requiredTechnologies ++
      reqs.keywords.filter fun k => !reqs.buzzwords.contains k).length = 0
  · simp only [h, if_true, eq_self_iff_true, if_pos]
    norm_num
  · simp only [h, if_false]
    constructor
    · refine le_min (by norm_num) ?_
      split_ifs with hp
      · positivity
      · positivity
    · exact min_le_left _ _

theorem domainIndustryBonus_nonneg (job : NormalizedJob) (reqs : JobRequirements) :
    0 ≤ domainIndustryBonus job reqs := by
  unfold domainIndustryBonus
  rcases job.companyInfo with _ | ci <;> rcases reqs.domain with _ | d <;>
    simp only []
  · norm_num
  · norm_num
  · norm_num
  · rcases ci.industry with _ | ind
    · norm_num
    · exact ite_nonneg (by norm_num) le_rfl

theorem domainWeightBonus_nonneg (job : NormalizedJob) (reqs : JobRequirements)
    (h : validRW job.relevanceWeights) : 0 ≤ domainWeightBonus job reqs := by
  unfold domainWeightBonus
  rcases hw : job.relevanceWeights with _ | w
  · norm_num
  · obtain ⟨hm, _, _, _, _, hl, hs, he⟩ := h w hw
    have h1 : (0 : ℚ) ≤ (w.mobile.getD 0) * 0.1 :=
      mul_nonneg (wIn01_getD_nonneg hm) (by norm_num)
    have h2 : (0 : ℚ) ≤ (w.startup.getD 0) * 0.15 :=
      mul_nonneg (wIn01_getD_nonneg hs) (by norm_num)
    have h3 : (0 : ℚ) ≤ (w.enterprise.getD 0) * 0.15 :=
      mul_nonneg (wIn01_getD_nonneg he) (by norm_num)
    have h4 : (0 : ℚ) ≤ (w.leadership.getD 0) * 0.1 :=
      mul_nonneg (wIn01_getD_nonneg hl) (by norm_num)
    refine add_nonneg (add_nonneg (add_nonneg ?_ ?_) ?_) ?_ <;>
      exact ite_nonneg (by assumption) le_rfl

theorem domainKeywordBonus_nonneg (job : NormalizedJob) (reqs : JobRequirements) :
    0 ≤ domainKeywordBonus job reqs := by
  unfold domainKeywordBonus
  rcases job.keywords with _ | kw <;> rcases reqs.domain with _ | d <;> simp only []
  · norm_num
  · norm_num
  · norm_num
  · rcases kw.domains with _ | ds
    · norm_num
    · exact ite_nonneg (by norm_num) le_rfl

theorem scoreDomainMatch_bounds (job : NormalizedJob) (reqs : JobRequirements)
    (h : validRW job.relevanceWeights) :
    0 ≤ scoreDomainMatch job reqs ∧ scoreDomainMatch job reqs ≤ 1 := by
  unfold scoreDomainMatch
  have h1 := domainIndustryBonus_nonneg job reqs
  have h2 := domainWeightBonus_nonneg job reqs h
  have h3 := domainKeywordBonus_nonneg job reqs
  exact ⟨le_min (by norm_num) (by linarith), min_le_left _ _⟩

theorem seniorityScoreOf_bounds (ol : Option RoleLevel) (s : SeniorityLevel) :
    0 ≤ seniorityScoreOf ol s ∧ seniorityScoreOf ol s ≤ 1 := by
  unfold seniorityScoreOf
  dsimp only
  split_ifs with h1 h2 h3 h4 h5
  · norm_num
  · norm_num
  · norm_num
  · norm_num
  · constructor
    · calc (0 : ℚ) ≤ 0.3 := by norm_num
        _ ≤ _ := le_max_left _ _
    · apply max_le (by norm_num)
      have hk : (1 : ℚ) ≤ (jsIndexOf levelOrder s.str : ℚ) -
          (jsIndexOf levelOrder ((ol.getD .mid).str) : ℚ) - 1 := by
        have : (1 : ℤ) ≤ jsIndexOf levelOrder s.str -
            jsIndexOf levelOrder ((ol.getD .mid).str) - 1 := by omega
        exact_mod_cast this
      nlinarith
  · norm_num

theorem scoreSeniorityMatch_bounds (job : NormalizedJob) (reqs : JobRequirements) :
    0 ≤ scoreSeniorityMatch job reqs ∧ scoreSeniorityMatch job reqs ≤ 1 :=
  seniorityScoreOf_bounds job.level reqs.seniority

theorem scoreRecency_bounds (now : ℤ) (cfg : MatchConfig) (job : NormalizedJob) (y : ℤ)
    (hd : 0 ≤ cfg.recencyDecay) (hy : getJobEndYear now job = some y) :
    ∃ r, scoreRecency now cfg job = some r ∧ 0 ≤ r ∧ r ≤ 1 := by
  simp only [scoreRecency, hy, Option.map_some']
  refine ⟨_, rfl, ?_, ?_⟩
  · split_ifs with h
    · norm_num
    · calc (0 : ℚ) ≤ 0.2 := by norm_num
        _ ≤ _ := le_max_left _ _
  · split_ifs with h
    · norm_num
    · apply max_le (by norm_num)
      have h2 : (2 : ℚ) < ((now - y : ℤ) : ℚ) := by exact_mod_cast not_le.mp h
      nlinarith

theorem truthyWeight_some {o : Option ℚ} {v : ℚ} (h : truthyWeight o = some v) :
    o = some v := by
  rcases o with _ | u
  · simp [truthyWeight] at h
  · simp only [truthyWeight] at h
    split_ifs at h with h0
    exact h

theorem relevancePicks_mem_bounds (reqs : JobRequirements) (w : RelevanceWeights)
    (hm : wIn01 w.mobile) (hl : wIn01 w.leadership) (hs : wIn01 w.startup)
    (he : wIn01 w.enterprise) :
    ∀ x ∈ relevancePicks reqs w, 0 ≤ x ∧ x ≤ 1 := by
  intro x hx
  simp only [relevancePicks, List.mem_filterMap, List.mem_cons, List.not_mem_nil,
    or_false, id] at hx
  obtain ⟨o, ho, hox⟩ := hx
  rcases ho with h | h | h <;> subst h
  · split_ifs at hox with hc
    exact hm x (truthyWeight_some hox)
  · split_ifs at hox with hc
    exact hl x (truthyWeight_some hox)
  · split_ifs at hox with hc1 hc2
    · exact hs x (truthyWeight_some hox)
    · exact he x (truthyWeight_some hox)

theorem list_sum_le_length (l : List ℚ) (h : ∀ x ∈ l, x ≤ 1) :
    l.sum ≤ (l.length : ℚ) := by
  induction l with
  | nil => simp
  | cons a t ih =>
    have ha := h a (List.mem_cons_self a t)
    have ht := ih fun x hx => h x (List.mem_cons_of_mem a hx)
    simp only [List.sum_cons, List.length_cons]
    push_cast
    linarith

theorem scoreRelevanceWeights_bounds (job : NormalizedJob) (reqs : JobRequirements)
    (h : validRW job.relevanceWeights) :
    0 ≤ scoreRelevanceWeights job reqs ∧ scoreRelevanceWeights job reqs ≤ 1 := by
  unfold scoreRelevanceWeights
  rcases hw : job.relevanceWeights with _ | w
  · norm_num
  · obtain ⟨hm, _, _, _, _, hl, hs, he⟩ := h w hw
    have hb := relevancePicks_mem_bounds reqs w hm hl hs he
    by_cases hp : (relevancePicks reqs w).length = 0
    · simp only [hp, if_pos]
      norm_num
    · simp only [hp, if_false]
      have hlen : (0 : ℚ) < ((relevancePicks reqs w).length : ℚ) := by
        exact_mod_cast Nat.pos_of_ne_zero hp
      constructor
      · exact div_nonneg (List.sum_nonneg fun x hx => (hb x hx).1) (le_of_lt hlen)
      · rw [div_le_one hlen]
        exact list_sum_le_length _ fun x hx => (hb x hx).2

theorem scoreProject_bounds (p : Project) (reqs : JobRequirements) :
    0 ≤ (scoreProject p reqs).score ∧ (scoreProject p reqs).score ≤ 1 := by
  unfold scoreProject
  dsimp only
  refine ⟨le_min (by norm_num) ?_, min_le_left _ _⟩
  have h1 : (0 : ℚ) ≤
      ((match p.technologies with
        | some techs => (findMatchingTechs techs
            (reqs.requiredTechnologies ++ reqs.preferredTechnologies)).1
        | none => []).length : ℚ) * 0.1 := by positivity
  have h2 : (0 : ℚ) ≤
      (match p.impact with
       | some impact =>
         (if reqs.keywords.any (fun k => jsIncludes (lowerStr impact) (lowerStr k)) then
           (0.15 : ℚ) else 0) +
         (if hasDigitPercent impact then (0.1 : ℚ) else 0)
       | none => 0) := by
    rcases p.impact with _ | impact
    · norm_num
    · exact add_nonneg (ite_nonneg (by norm_num) le_rfl) (ite_nonneg (by norm_num) le_rfl)
  have h3 : (0 : ℚ) ≤
      (match p.teamSize with
       | some ts => if reqs.leadershipRequired && ts > 1 then (0.1 : ℚ) else 0
       | none => 0) := by
    rcases p.teamSize with _ | ts
    · norm_num
    · exact ite_nonneg (by norm_num) le_rfl
  linarith

theorem scoreAchievement_bounds (a : Achievement) (reqs : JobRequirements) :
    0 ≤ (scoreAchievement a reqs).score ∧ (scoreAchievement a reqs).score ≤ 1 := by
  unfold scoreAchievement
  dsimp only
  refine ⟨le_min (by norm_num) ?_, min_le_left _ _⟩
  have h1 : (0 : ℚ) ≤
      (if ((reqs.keywords.filter fun k =>
          jsIncludes (lowerStr a.description) (lowerStr k)).length) > 0 then
        (((reqs.keywords.filter fun k =>
          jsIncludes (lowerStr a.description) (lowerStr k)).length : ℚ)) * 0.1
       else 0) := by
    refine ite_nonneg ?_ le_rfl
    positivity
  have h2 : (0 : ℚ) ≤
      (if a.quantifiable.getD false || containsDigit a.description then (0.2 : ℚ) else 0) :=
    ite_nonneg (by norm_num) le_rfl
  have h3 : (0 : ℚ) ≤
      (match a.category with
       | some c =>
         (if reqs.leadershipRequired && c == .team then (0.15 : ℚ) else 0) +
         (if c == .performance || c == .quality || c == .business then (0.1 : ℚ) else 0)
       | none => 0) := by
    rcases a.category with _ | c
    · norm_num
    · exact add_nonneg (ite_nonneg (by norm_num) le_rfl) (ite_nonneg (by norm_num) le_rfl)
  have h4 : (0 : ℚ) ≤
      (if reqs.leadershipRequired && hasLeadershipKeyword a.description then (0.15 : ℚ)
       else 0) := ite_nonneg (by norm_num) le_rfl
  have h5 : (0 : ℚ) ≤ (if a.impact.isSome then (0.1 : ℚ) else 0) :=
    ite_nonneg (by norm_num) le_rfl
  linarith

theorem calculateSkillScore_bounds (now : ℤ) (sk : Skill) (sd : SkillsData)
    (b1 b2 : Bool) :
    0 ≤ calculateSkillScore now sk sd b1 b2 ∧ calculateSkillScore now sk sd b1 b2 ≤ 1 := by
  unfold calculateSkillScore
  dsimp only
  refine ⟨le_min (by norm_num) ?_, min_le_left _ _⟩
  have h1 : (0 : ℚ) ≤ if b1 = true then 0.4 else if b2 = true then 0.25 else 0 :=
    ite_nonneg (by norm_num) (ite_nonneg (by norm_num) le_rfl)
  have h2 : (0 : ℚ) ≤
      (match sk.level with
       | .expert => (0.25 : ℚ)
       | .advanced => 0.15
       | .intermediate => 0.1
       | .beginner => 0.05) := by
    cases sk.level <;> norm_num
  have h3 : (0 : ℚ) ≤
      (if now - sk.lastUsed = 0 then (0.15 : ℚ)
       else if now - sk.lastUsed ≤ 2 then 0.1
       else if now - sk.lastUsed ≤ 5 then 0.05 else 0) :=
    ite_nonneg (by norm_num) (ite_nonneg (by norm_num) (ite_nonneg (by norm_num) le_rfl))
  have h4 : (0 : ℚ) ≤ (if isFeatured sk.name sd = true then (0.1 : ℚ) else 0) :=
    ite_nonneg (by norm_num) le_rfl
  have h5 : (0 : ℚ) ≤ (if sk.wantToUse = true then (0.05 : ℚ) else 0) :=
    ite_nonneg (by norm_num) le_rfl
  have h6 : (0 : ℚ) ≤
      (if sk.yearsUsed ≥ 5 then (0.1 : ℚ) else if sk.yearsUsed ≥ 3 then 0.05 else 0) :=
    ite_nonneg (by norm_num) (ite_nonneg (by norm_num) le_rfl)
  linarith

/-- The composite weighted sum stays in `[0,1]` when the weights are
non-negative and sum to 1 and each sub-score is in `[0,1]`. -/
theorem weighted_total_bounds (t d s r v wt wd ws wr wv : ℚ)
    (ht : 0 ≤ t ∧ t ≤ 1) (hd : 0 ≤ d ∧ d ≤ 1) (hs : 0 ≤ s ∧ s ≤ 1)
    (hr : 0 ≤ r ∧ r ≤ 1) (hv : 0 ≤ v ∧ v ≤ 1)
    (hwt : 0 ≤ wt) (hwd : 0 ≤ wd) (hws : 0 ≤ ws) (hwr : 0 ≤ wr) (hwv : 0 ≤ wv)
    (hsum : wt + wd + ws + wr + wv = 1) :
    0 ≤ t * wt + d * wd + s * ws + r * wr + v * wv ∧
      t * wt + d * wd + s * ws + r * wr + v * wv ≤ 1 := by
  constructor
  · have := mul_nonneg ht.1 hwt
    have := mul_nonneg hd.1 hwd
    have := mul_nonneg hs.1 hws
    have := mul_nonneg hr.1 hwr
    have := mul_nonneg hv.1 hwv
    linarith
  · have h1 : t * wt ≤ wt := mul_le_of_le_one_left hwt ht.2
    have h2 : d * wd ≤ wd := mul_le_of_le_one_left hwd hd.2
    have h3 : s * ws ≤ ws := mul_le_of_le_one_left hws hs.2
    have h4 : r * wr ≤ wr := mul_le_of_le_one_left hwr hr.2
    have h5 : v * wv ≤ wv := mul_le_of_le_one_left hwv hv.2
    linarith

/-- C2 (amended): with every supplied relevance weight in `[0,1]`, a
non-negative recency decay, a parseable effective end year, and — for the
composite — five *non-negative* configured weights summing to 1, every
sub-score, the composite total, and every project / achievement / skill
score lies in `[0,1]`. -/
theorem score_bounds :
    ∀ (now : ℤ) (cfg : MatchConfig) (job : NormalizedJob) (reqs : JobRequirements) (y : ℤ),
      validRW job.relevanceWeights →
      0 ≤ cfg.recencyDecay →
      getJobEndYear now job = some y →
      (0 ≤ scoreTechnologyMatch job reqs ∧ scoreTechnologyMatch job reqs ≤ 1) ∧
      (0 ≤ scoreDomainMatch job reqs ∧ scoreDomainMatch job reqs ≤ 1) ∧
      (0 ≤ scoreSeniorityMatch job reqs ∧ scoreSeniorityMatch job reqs ≤ 1) ∧
      (∃ r, scoreRecency now cfg job = some r ∧ 0 ≤ r ∧ r ≤ 1) ∧
      (0 ≤ scoreRelevanceWeights job reqs ∧ scoreRelevanceWeights job reqs ≤ 1) ∧
      (cfg.weights.technology + cfg.weights.domain + cfg.weights.seniority +
          cfg.weights.recency + cfg.weights.relevance = 1 →
        0 ≤ cfg.weights.technology → 0 ≤ cfg.weights.domain →
        0 ≤ cfg.weights.seniority → 0 ≤ cfg.weights.recency →
        0 ≤ cfg.weights.relevance →
        (scoreJob now job reqs cfg).isSome = true ∧
          ∀ js, scoreJob now job reqs cfg = some js →
            0 ≤ js.totalScore ∧ js.totalScore ≤ 1) ∧
      (∀ p, 0 ≤ (scoreProject p reqs).score ∧ (scoreProject p reqs).score ≤ 1) ∧
      (∀ a, 0 ≤ (scoreAchievement a reqs).score ∧ (scoreAchievement a reqs).score ≤ 1) ∧
      (∀ (sk : Skill) (sd : SkillsData) (b1 b2 : Bool),
        0 ≤ calculateSkillScore now sk sd b1 b2 ∧
          calculateSkillScore now sk sd b1 b2 ≤ 1) := by
  intro now cfg job reqs y hrw hdecay hy
  obtain ⟨r, hr, hr0, hr1⟩ := scoreRecency_bounds now cfg job y hdecay hy
  refine ⟨scoreTechnologyMatch_bounds job reqs, scoreDomainMatch_bounds job reqs hrw,
    scoreSeniorityMatch_bounds job reqs, ⟨r, hr, hr0, hr1⟩,
    scoreRelevanceWeights_bounds job reqs hrw, ?_,
    fun p => scoreProject_bounds p reqs, fun a => scoreAchievement_bounds a reqs,
    fun sk sd b1 b2 => calculateSkillScore_bounds now sk sd b1 b2⟩
  intro hsum hwt hwd hws hwr hwv
  have hb := weighted_total_bounds (scoreTechnologyMatch job reqs)
    (scoreDomainMatch job reqs) (scoreSeniorityMatch job reqs) r
    (scoreRelevanceWeights job reqs) cfg.weights.technology cfg.weights.domain
    cfg.weights.seniority cfg.weights.recency cfg.weights.relevance
    (scoreTechnologyMatch_bounds job reqs) (scoreDomainMatch_bounds job reqs hrw)
    (scoreSeniorityMatch_bounds job reqs) ⟨hr0, hr1⟩
    (scoreRelevanceWeights_bounds job reqs hrw) hwt hwd hws hwr hwv hsum
  constructor
  · rw [scoreJob, hr, Option.map_some']
    rfl
  · intro js hjs
    rw [scoreJob, hr, Option.map_some'] at hjs
    injection hjs with hjs'
    subst hjs'
    exact ⟨hb.1, hb.2⟩

/-- Witness for C2 at a concrete valid input (the default config). -/
theorem score_bounds_witness :
    0 ≤ scoreTechnologyMatch plainJob emptyReqs ∧
      scoreTechnologyMatch plainJob emptyReqs ≤ 1 :=
  (score_bounds 2025 DEFAULT_MATCH_CONFIG plainJob emptyReqs 2025
    (fun _ hw => Option.noConfusion hw) (by norm_num [DEFAULT_MATCH_CONFIG]) rfl).1

/-- A config whose weights sum to 1 but include a negative entry. -/
def cfgBad : MatchConfig :=
  { DEFAULT_MATCH_CONFIG with
    weights :=
      { technology := 2, domain := -1, seniority := 0, recency := 0, relevance := 0 } }

/-- A senior Swift job still active in 2024. -/
def jobCx : NormalizedJob :=
  { companyName := "Acme", title := "Dev", level := some .senior,
    technologies := ["Swift"], endDate := some "2024-01" }

/-- Requirements asking for Swift at senior level. -/
def reqsCx : JobRequirements :=
  { seniority := .senior, requiredTechnologies := ["Swift"] }

/-- C2 counterexample: all the validity conditions enumerated by the claim
hold (supplied relevance weights in `[0,1]` vacuously, non-negative decay,
weights summing to 1), yet the composite total is 3/2 > 1, because one
configured weight is negative — the claim omits non-negativity of the
configured weights. -/
theorem score_bounds_counterexample :
    (cfgBad.weights.technology + cfgBad.weights.domain + cfgBad.weights.seniority +
        cfgBad.weights.recency + cfgBad.weights.relevance = 1) ∧
    0 ≤ cfgBad.recencyDecay ∧
    validRW jobCx.relevanceWeights ∧
    (scoreJob 2025 jobCx reqsCx cfgBad).map JobScore.totalScore = some (3 / 2) ∧
    ¬((3 / 2 : ℚ) ≤ 1) := by
  refine ⟨by norm_num [cfgBad, DEFAULT_MATCH_CONFIG],
    by norm_num [cfgBad, DEFAULT_MATCH_CONFIG], ?_, ?_, by norm_num⟩
  · intro w hw
    rw [show jobCx.relevanceWeights = none from rfl] at hw
    exact Option.noConfusion hw
  · have hrec : scoreRecency 2025 cfgBad jobCx = some 1 := by
      simp only [scoreRecency, show getJobEndYear 2025 jobCx = some 2024 from rfl,
        Option.map_some']
      norm_num
    have ht : scoreTechnologyMatch jobCx reqsCx = 1 := by
      have hl : (reqsCx.requiredTechnologies ++
          reqsCx.keywords.filter fun k => !reqsCx.buzzwords.contains k) = ["Swift"] := rfl
      have hm : (findMatchingTechs jobCx.technologies ["Swift"]).1 = ["Swift"] := rfl
      have hp : reqsCx.preferredTechnologies = [] := rfl
      simp only [scoreTechnologyMatch, hl, hm, hp]
      norm_num
    have hd : scoreDomainMatch jobCx reqsCx = 0.5 := by
      have h1 : domainIndustryBonus jobCx reqsCx = 0 := rfl
      have h2 : domainWeightBonus jobCx reqsCx = 0 := rfl
      have h3 : domainKeywordBonus jobCx reqsCx = 0 := rfl
      simp only [scoreDomainMatch, h1, h2, h3]
      norm_num
    have hs : scoreSeniorityMatch jobCx reqsCx = 1 := by
      have : scoreSeniorityMatch jobCx reqsCx = seniorityScoreOf (some .senior) .senior := rfl
      rw [this]
      norm_num [seniorityScoreOf, RoleLevel.str, SeniorityLevel.str, idx_senior]
    have hv : scoreRelevanceWeights jobCx reqsCx = 0.5 := rfl
    simp only [scoreJob, hrec, Option.map_some']
    rw [Option.some_inj]
    show scoreTechnologyMatch jobCx reqsCx * cfgBad.weights.technology +
        scoreDomainMatch jobCx reqsCx * cfgBad.weights.domain +
        scoreSeniorityMatch jobCx reqsCx * cfgBad.weights.seniority +
        1 * cfgBad.weights.recency +
        scoreRelevanceWeights jobCx reqsCx * cfgBad.weights.relevance = 3 / 2
    rw [ht, hd, hs, hv]
    norm_num [cfgBad, DEFAULT_MATCH_CONFIG]

/-! ## Claim C3: selector bounds and sortedness -/

/-- C3: whenever the candidate pool holds at least `minToShow` items and
`minToShow ≤ maxToShow`, each selector returns between `minToShow` and
`maxToShow` items, sorted descending by score (skills: required before
preferred before other, then descending by score). -/
theorem selector_bounds :
    ∀ (now : ℤ) (jobs : List NormalizedJob) (skills : SkillsData)
      (reqs : JobRequirements) (cfg : MatchConfig),
      (cfg.minProjectsToShow ≤ cfg.maxProjectsToShow →
        cfg.minProjectsToShow ≤ (projectPool jobs reqs).length →
        cfg.minProjectsToShow ≤ (selectProjects jobs reqs cfg).length ∧
          (selectProjects jobs reqs cfg).length ≤ cfg.maxProjectsToShow ∧
          List.Sorted projGE (selectProjects jobs reqs cfg)) ∧
      (cfg.minAchievementsToShow ≤ cfg.maxAchievementsToShow →
        cfg.minAchievementsToShow ≤ (achievementPool jobs reqs).length →
        cfg.minAchievementsToShow ≤ (selectAchievements jobs reqs cfg).length ∧
          (selectAchievements jobs reqs cfg).length ≤ cfg.maxAchievementsToShow ∧
          List.Sorted achGE (selectAchievements jobs reqs cfg)) ∧
      (cfg.minSkillsToShow ≤ cfg.maxSkillsToShow →
        cfg.minSkillsToShow ≤ (skillCandidates now skills reqs).length →
        cfg.minSkillsToShow ≤ (selectSkills now skills reqs cfg).length ∧
          (selectSkills now skills reqs cfg).length ≤ cfg.maxSkillsToShow ∧
          List.Sorted skillGE (selectSkills now skills reqs cfg)) := by
  intro now jobs skills reqs cfg
  refine ⟨?_, ?_, ?_⟩ <;> intro h1 h2
  · unfold selectProjects
    dsimp only
    refine ⟨?_, ?_, ?_⟩
    · rw [List.length_take, List.length_insertionSort]
      omega
    · rw [List.length_take, List.length_insertionSort]
      omega
    · exact (List.sorted_insertionSort projGE _).sublist (List.take_sublist _ _)
  · unfold selectAchievements
    dsimp only
    refine ⟨?_, ?_, ?_⟩
    · rw [List.length_take, List.length_insertionSort]
      omega
    · rw [List.length_take, List.length_insertionSort]
      omega
    · exact (List.sorted_insertionSort achGE _).sublist (List.take_sublist _ _)
  · unfold selectSkills
    dsimp only
    refine ⟨?_, ?_, ?_⟩
    · rw [List.length_take, List.length_insertionSort]
      omega
    · rw [List.length_take, List.length_insertionSort]
      omega
    · exact (List.sorted_insertionSort skillGE _).sublist (List.take_sublist _ _)

/-- A config with zero minimums (the maximums keep their defaults). -/
def cfg0 : MatchConfig :=
  { DEFAULT_MATCH_CONFIG with
    minProjectsToShow := 0, minAchievementsToShow := 0, minSkillsToShow := 0 }

/-- Witness for C3 at concrete inputs. -/
theorem selector_bounds_witness :
    (cfg0.minProjectsToShow ≤ (selectProjects [] emptyReqs cfg0).length ∧
      (selectProjects [] emptyReqs cfg0).length ≤ cfg0.maxProjectsToShow ∧
      List.Sorted projGE (selectProjects [] emptyReqs cfg0)) ∧
    (cfg0.minAchievementsToShow ≤ (selectAchievements [] emptyReqs cfg0).length ∧
      (selectAchievements [] emptyReqs cfg0).length ≤ cfg0.maxAchievementsToShow ∧
      List.Sorted achGE (selectAchievements [] emptyReqs cfg0)) ∧
    (cfg0.minSkillsToShow ≤ (selectSkills 2025 emptySkills emptyReqs cfg0).length ∧
      (selectSkills 2025 emptySkills emptyReqs cfg0).length ≤ cfg0.maxSkillsToShow ∧
      List.Sorted skillGE (selectSkills 2025 emptySkills emptyReqs cfg0)) :=
  ⟨(selector_bounds 2025 [] emptySkills emptyReqs cfg0).1 (Nat.zero_le _) (Nat.zero_le _),
   (selector_bounds 2025 [] emptySkills emptyReqs cfg0).2.1 (Nat.zero_le _) (Nat.zero_le _),
   (selector_bounds 2025 [] emptySkills emptyReqs cfg0).2.2 (Nat.zero_le _) (Nat.zero_le _)⟩

end Resume
